import Mathlib

/-!
A verification development for the webhook reshaping layer: a shallow
embedding of the idempotent event-ingestion core (emptiness normalizer,
canonical encoders, MD5 fingerprint generator, field-provenance recorder,
and the event classifiers of the appointments and communications
transformation handlers), together with theorems about the embedded code.

Modelling conventions:
* JavaScript values reachable from a parsed webhook body are modelled by
  `JVal`.  Finite numbers are modelled as integers (every number occurring
  in the properties under study is integral); `nan` and `inf` model the
  non-finite doubles.  BigInt values, which cannot occur in a JSON-parsed
  body, are omitted.  Objects are insertion-ordered association lists, as
  JavaScript objects are; a missing property is `Option.none` at the
  access site.  Values are trees (a JSON-parsed body has no sharing or
  cycles, so the encoders' cycle guard never fires on the modelled domain).
* Strings are manipulated through their character lists so that every
  definition evaluates by kernel reduction.
-/

inductive JVal where
  | null
  | bool (b : Bool)
  | num (n : Int)
  | nan
  | inf (negative : Bool)
  | str (s : String)
  | arr (elements : List JVal)
  | obj (fields : List (String × JVal))
deriving Repr

/-- Lowercase digit / hex-digit character for `n < 16`. -/
def hexDigit (n : Nat) : Char :=
  if n < 10 then Char.ofNat (48 + n) else Char.ofNat (87 + n)

/-- Decimal digits of a natural number (`fuel`-structured so that the kernel
can evaluate it; the fuel is always taken `≥ n`). -/
def natChars : Nat → Nat → List Char
  | 0, _ => []
  | fuel + 1, n => if n < 10 then [hexDigit n] else natChars fuel (n / 10) ++ [hexDigit (n % 10)]

/-- Decimal rendering of an integer, as JavaScript renders an integral number. -/
def intStr (n : Int) : String :=
  if n < 0 then ⟨'-' :: natChars (n.natAbs + 1) n.natAbs⟩ else ⟨natChars (n.natAbs + 1) n.natAbs⟩

/-- The ASCII lowercasing `String.prototype.toLowerCase` performs on the
character sets occurring here. -/
def jsLowerChar (c : Char) : Char :=
  if 65 ≤ c.toNat ∧ c.toNat ≤ 90 then Char.ofNat (c.toNat + 32) else c

def lowerList (l : List Char) : List Char := l.map jsLowerChar

/-- Whitespace recognized by `String.prototype.trim` (ASCII range). -/
def isWsChar (c : Char) : Bool :=
  c = ' ' ∨ c = '\t' ∨ c = '\n' ∨ c = '\r' ∨ c = '\x0b' ∨ c = '\x0c'

def trimList (l : List Char) : List Char :=
  ((l.dropWhile isWsChar).reverse.dropWhile isWsChar).reverse

def jsTrim (s : String) : String := ⟨trimList s.toList⟩

def jsLower (s : String) : String := ⟨lowerList s.toList⟩

/-- Lexicographic (code-unit) order on character lists: the order JavaScript
string comparison uses. -/
def charListLe : List Char → List Char → Bool
  | [], _ => true
  | _ :: _, [] => false
  | a :: as, b :: bs => if a = b then charListLe as bs else decide (a.toNat < b.toNat)

def strLe (s t : String) : Bool := charListLe s.toList t.toList

/-- `typeof v === 'object'` (true for `null`, arrays, and plain objects). -/
def typeofObject : JVal → Bool
  | .null | .arr _ | .obj _ => true
  | _ => false

def isArrayV : JVal → Bool
  | .arr _ => true
  | _ => false

def isPlainObj : JVal → Bool
  | .obj _ => true
  | _ => false

/-- JavaScript truthiness of a value. -/
def truthy : JVal → Bool
  | .null => false
  | .bool b => b
  | .num n => decide (n ≠ 0)
  | .nan => false
  | .inf _ => true
  | .str s => decide (s ≠ "")
  | .arr _ => true
  | .obj _ => true

/-- Property read `v.k`: `none` models the JavaScript `undefined` result.
Reading a property of a primitive or an array yields `undefined` for the
(string-named, non-index) keys used by the handlers. -/
def getField : JVal → String → Option JVal
  | .obj l, k => l.lookup k
  | _, _ => none

/-- Property read collapsing `undefined` to `null` (the handlers never
distinguish the two). -/
def fieldOr (v : JVal) (k : String) : JVal := (getField v k).getD .null

/-- `hasValue` from the transformation scripts: false for null/undefined,
whitespace-only strings, non-finite numbers, empty objects and empty arrays. -/
def hasValue : JVal → Bool
  | .null => false
  | .str s => decide (trimList s.toList ≠ [])
  | .nan => false
  | .inf _ => false
  | .obj l => !l.isEmpty
  | .arr l => !l.isEmpty
  | .bool _ => true
  | .num _ => true

/-- `getOrNull` from the transformation scripts: null for null/undefined and
non-finite numbers, and the sentinel strings "", "null", "n/a"
(case/whitespace-insensitively) coerced to null. -/
def getOrNull : JVal → JVal
  | .null => .null
  | .nan => .null
  | .inf _ => .null
  | .str s =>
    let t := lowerList (trimList s.toList)
    if t = [] ∨ t = "null".toList ∨ t = "n/a".toList then .null else .str s
  | v => v

/-- `getOrNull` applied to a possibly-`undefined` property read. -/
def getOrNullOpt : Option JVal → JVal
  | none => .null
  | some v => getOrNull v

/-- `addIfHasValue(obj, key, value)`: append the field iff the value passes
`hasValue` (each call site adds a fresh key, so appending is assignment). -/
def addIfHasValue (l : List (String × JVal)) (k : String) (v : JVal) : List (String × JVal) :=
  if hasValue v then l ++ [(k, v)] else l

/-- JavaScript property assignment `o[k] = v` on an association list:
overwrite in place when the key exists, otherwise append. -/
def objSet (l : List (String × JVal)) (k : String) (v : JVal) : List (String × JVal) :=
  if l.any (fun p => p.1 == k) then l.map (fun p => if p.1 == k then (p.1, v) else p)
  else l ++ [(k, v)]

/-- One escaped character of `JSON.stringify` string output. -/
def escChar (c : Char) : List Char :=
  if c = '"' then ['\\', '"']
  else if c = '\\' then ['\\', '\\']
  else if c = '\n' then ['\\', 'n']
  else if c = '\r' then ['\\', 'r']
  else if c = '\t' then ['\\', 't']
  else if c = '\x08' then ['\\', 'b']
  else if c = '\x0c' then ['\\', 'f']
  else if c.toNat < 32 then ['\\', 'u', '0', '0', hexDigit (c.toNat / 16), hexDigit (c.toNat % 16)]
  else [c]

/-- `JSON.stringify` rendering of a string literal. -/
def quoteString (s : String) : String := ⟨'"' :: (s.toList.map escChar).flatten ++ ['"']⟩

mutual
/-- `JSON.stringify` on the values produced by the encoders (objects are
rendered in field order; the encoders have already sorted them). -/
def jsonStringify : JVal → String
  | .null => "null"
  | .bool true => "true"
  | .bool false => "false"
  | .num n => intStr n
  | .nan => "null"
  | .inf _ => "null"
  | .str s => quoteString s
  | .arr l => "[" ++ String.intercalate "," (stringifyElems l) ++ "]"
  | .obj l => "\x7b" ++ String.intercalate "," (stringifyFields l) ++ "\x7d"

def stringifyElems : List JVal → List String
  | [] => []
  | v :: t => jsonStringify v :: stringifyElems t

def stringifyFields : List (String × JVal) → List String
  | [] => []
  | (k, v) :: t => (quoteString k ++ ":" ++ jsonStringify v) :: stringifyFields t
end

/-- Stable sort of array elements by the `JSON.stringify` rendering of each
element, as the fingerprint encoder's comparator performs (JavaScript's
`Array.prototype.sort` is stable). -/
def sortBySer (l : List JVal) : List JVal :=
  List.insertionSort (fun a b => strLe (jsonStringify a) (jsonStringify b) = true) l

/-- Stable sort of object fields by key, as `Object.keys(v).sort()` orders
the keys of the output object. -/
def sortByKey (l : List (String × JVal)) : List (String × JVal) :=
  List.insertionSort (fun p q => strLe p.1 q.1 = true) l

mutual
/-- The order-preserving encoder `stableStringify`'s recursive `enc`:
non-finite numbers collapse to null, object keys are sorted
lexicographically at every level, arrays keep their order.  (Encoding a
field's value commutes with the key sort, which only reads keys.) -/
def stableEnc : JVal → JVal
  | .null => .null
  | .bool b => .bool b
  | .num n => .num n
  | .nan => .null
  | .inf _ => .null
  | .str s => .str s
  | .arr l => .arr (stableEncList l)
  | .obj l => .obj (sortByKey (stableEncFields l))

def stableEncList : List JVal → List JVal
  | [] => []
  | v :: t => stableEnc v :: stableEncList t

def stableEncFields : List (String × JVal) → List (String × JVal)
  | [] => []
  | (k, v) :: t => (k, stableEnc v) :: stableEncFields t
end

mutual
/-- The order-insensitive encoder `canonicalStringify`'s recursive `enc`:
like `stableEnc`, but each array's encoded elements are additionally
re-sorted by their own `JSON.stringify` rendering. -/
def canonEnc : JVal → JVal
  | .null => .null
  | .bool b => .bool b
  | .num n => .num n
  | .nan => .null
  | .inf _ => .null
  | .str s => .str s
  | .arr l => .arr (sortBySer (canonEncList l))
  | .obj l => .obj (sortByKey (canonEncFields l))

def canonEncList : List JVal → List JVal
  | [] => []
  | v :: t => canonEnc v :: canonEncList t

def canonEncFields : List (String × JVal) → List (String × JVal)
  | [] => []
  | (k, v) :: t => (k, canonEnc v) :: canonEncFields t
end

/-- `stableStringify` from the communications script (order-preserving). -/
def stableStringify (v : JVal) : String := jsonStringify (stableEnc v)

/-- `canonicalStringify`, identical in the appointments and communications
scripts (order-insensitive). -/
def canonicalStringify (v : JVal) : String := jsonStringify (canonEnc v)

/-- A signed 32-bit JavaScript integer literal as its unsigned residue. -/
def md5c (i : Int) : Nat := (i % 4294967296).toNat

def add32 (x y : Nat) : Nat := (x + y) % 4294967296

def not32 (x : Nat) : Nat := 4294967295 - x

/-- 32-bit left-rotate: `(v << s) | (v >>> (32 - s))`. -/
def rotl32 (v s : Nat) : Nat := ((v <<< s) % 4294967296) ||| (v >>> (32 - s))

def cmn (q a b x s t : Nat) : Nat := add32 (rotl32 (add32 (add32 a q) (add32 x t)) s) b

def ff (a b c d x s t : Nat) : Nat := cmn ((b &&& c) ||| (not32 b &&& d)) a b x s t

def gg (a b c d x s t : Nat) : Nat := cmn ((b &&& d) ||| (c &&& not32 d)) a b x s t

def hh (a b c d x s t : Nat) : Nat := cmn ((b ^^^ c) ^^^ d) a b x s t

def ii (a b c d x s t : Nat) : Nat := cmn (c ^^^ (b ||| not32 d)) a b x s t

/-- One MD5 compression round over a 16-word block `k`. -/
def md5cycle (st : Nat × Nat × Nat × Nat) (k : List Nat) : Nat × Nat × Nat × Nat :=
  let w := fun i => k.getD i 0
  let (a0, b0, c0, d0) := st
  let a := a0; let b := b0; let c := c0; let d := d0
  let a := ff a b c d (w 0) 7 (md5c (-680876936)); let d := ff d a b c (w 1) 12 (md5c (-389564586))
  let c := ff c d a b (w 2) 17 (md5c 606105819); let b := ff b c d a (w 3) 22 (md5c (-1044525330))
  let a := ff a b c d (w 4) 7 (md5c (-176418897)); let d := ff d a b c (w 5) 12 (md5c 1200080426)
  let c := ff c d a b (w 6) 17 (md5c (-1473231341)); let b := ff b c d a (w 7) 22 (md5c (-45705983))
  let a := ff a b c d (w 8) 7 (md5c 1770035416); let d := ff d a b c (w 9) 12 (md5c (-1958414417))
  let c := ff c d a b (w 10) 17 (md5c (-42063)); let b := ff b c d a (w 11) 22 (md5c (-1990404162))
  let a := ff a b c d (w 12) 7 (md5c 1804603682); let d := ff d a b c (w 13) 12 (md5c (-40341101))
  let c := ff c d a b (w 14) 17 (md5c (-1502002290)); let b := ff b c d a (w 15) 22 (md5c 1236535329)
  let a := gg a b c d (w 1) 5 (md5c (-165796510)); let d := gg d a b c (w 6) 9 (md5c (-1069501632))
  let c := gg c d a b (w 11) 14 (md5c 643717713); let b := gg b c d a (w 0) 20 (md5c (-373897302))
  let a := gg a b c d (w 5) 5 (md5c (-701558691)); let d := gg d a b c (w 10) 9 (md5c 38016083)
  let c := gg c d a b (w 15) 14 (md5c (-660478335)); let b := gg b c d a (w 4) 20 (md5c (-405537848))
  let a := gg a b c d (w 9) 5 (md5c 568446438); let d := gg d a b c (w 14) 9 (md5c (-1019803690))
  let c := gg c d a b (w 3) 14 (md5c (-187363961)); let b := gg b c d a (w 8) 20 (md5c 1163531501)
  let a := gg a b c d (w 13) 5 (md5c (-1444681467)); let d := gg d a b c (w 2) 9 (md5c (-51403784))
  let c := gg c d a b (w 7) 14 (md5c 1735328473); let b := gg b c d a (w 12) 20 (md5c (-1926607734))
  let a := hh a b c d (w 5) 4 (md5c (-378558)); let d := hh d a b c (w 8) 11 (md5c (-2022574463))
  let c := hh c d a b (w 11) 16 (md5c 1839030562); let b := hh b c d a (w 14) 23 (md5c (-35309556))
  let a := hh a b c d (w 1) 4 (md5c (-1530992060)); let d := hh d a b c (w 4) 11 (md5c 1272893353)
  let c := hh c d a b (w 7) 16 (md5c (-155497632)); let b := hh b c d a (w 10) 23 (md5c (-1094730640))
  let a := hh a b c d (w 13) 4 (md5c 681279174); let d := hh d a b c (w 0) 11 (md5c (-358537222))
  let c := hh c d a b (w 3) 16 (md5c (-722521979)); let b := hh b c d a (w 6) 23 (md5c 76029189)
  let a := hh a b c d (w 9) 4 (md5c (-640364487)); let d := hh d a b c (w 12) 11 (md5c (-421815835))
  let c := hh c d a b (w 15) 16 (md5c 530742520); let b := hh b c d a (w 2) 23 (md5c (-995338651))
  let a := ii a b c d (w 0) 6 (md5c (-198630844)); let d := ii d a b c (w 7) 10 (md5c 1126891415)
  let c := ii c d a b (w 14) 15 (md5c (-1416354905)); let b := ii b c d a (w 5) 21 (md5c (-57434055))
  let a := ii a b c d (w 12) 6 (md5c 1700485571); let d := ii d a b c (w 3) 10 (md5c (-1894986606))
  let c := ii c d a b (w 10) 15 (md5c (-1051523)); let b := ii b c d a (w 1) 21 (md5c (-2054922799))
  let a := ii a b c d (w 8) 6 (md5c 1873313359); let d := ii d a b c (w 15) 10 (md5c (-30611744))
  let c := ii c d a b (w 6) 15 (md5c (-1560198380)); let b := ii b c d a (w 13) 21 (md5c 1309151649)
  let a := ii a b c d (w 4) 6 (md5c (-145523070)); let d := ii d a b c (w 11) 10 (md5c (-1120210379))
  let c := ii c d a b (w 2) 15 (md5c 718787259); let b := ii b c d a (w 9) 21 (md5c (-343485551))
  (add32 a0 a, add32 b0 b, add32 c0 c, add32 d0 d)

/-- `md5blk`: a full 64-code block as 16 little-endian 32-bit words. -/
def md5blk (s : List Nat) : List Nat :=
  (List.range 16).map (fun j =>
    (s.getD (4 * j) 0 + ((s.getD (4 * j + 1) 0) <<< 8) + ((s.getD (4 * j + 2) 0) <<< 16) +
      ((s.getD (4 * j + 3) 0) <<< 24)) % 4294967296)

/-- Consume the input codes, compressing each full 64-code block; returns the
final state and the remaining (< 64) codes, as the block loop of `md51`. -/
def md5body (st : Nat × Nat × Nat × Nat) (buf : List Nat) : List Nat → (Nat × Nat × Nat × Nat) × List Nat
  | [] => (st, buf)
  | c :: rest =>
    let buf := buf ++ [c]
    if buf.length = 64 then md5body (md5cycle st (md5blk buf)) [] rest
    else md5body st buf rest

/-- `tail[i >> 2] |= v` (32-bit). -/
def orAt (l : List Nat) (i v : Nat) : List Nat := l.set i ((l.getD i 0 ||| v) % 4294967296)

def fillTail (tail : List Nat) (i : Nat) : List Nat → List Nat
  | [] => tail
  | c :: cs => fillTail (orAt tail (i / 4) ((c <<< ((i % 4) * 8)) % 4294967296)) (i + 1) cs

/-- The padding steps of `md51` applied to the remaining codes. -/
def md5tail (st : Nat × Nat × Nat × Nat) (rem : List Nat) (n : Nat) : Nat × Nat × Nat × Nat :=
  let i := rem.length
  let t := fillTail (List.replicate 16 0) 0 rem
  let t := orAt t (i / 4) ((128 <<< ((i % 4) * 8)) % 4294967296)
  if i > 55 then
    let st := md5cycle st t
    md5cycle st ((List.replicate 16 0).set 14 ((n * 8) % 4294967296))
  else
    md5cycle st (t.set 14 ((n * 8) % 4294967296))

/-- `rhex`: eight lowercase hex digits of a word, low byte first. -/
def rhex (n : Nat) : List Char :=
  ((List.range 4).map (fun j =>
    [hexDigit ((n >>> (j * 8 + 4)) % 16), hexDigit ((n >>> (j * 8)) % 16)])).flatten

/-- The `md5` function embedded verbatim from the transformation scripts
(both scripts carry the identical implementation), over the string's
character codes. -/
def md5 (s : String) : String :=
  let codes := s.toList.map Char.toNat
  let st0 := (md5c 1732584193, md5c (-271733879), md5c (-1732584194), md5c 271733878)
  let (st, rem) := md5body st0 [] codes
  let (a, b, c, d) := md5tail st rem codes.length
  ⟨rhex a ++ rhex b ++ rhex c ++ rhex d⟩

/-- `md5ToUuid`: reformat 32 hex digits as 8-4-4-4-12 groups. -/
def md5ToUuid (h : String) : String :=
  let l := h.toList
  ⟨(l.take 8) ++ '-' :: ((l.drop 8).take 4) ++ '-' :: ((l.drop 12).take 4) ++
    '-' :: ((l.drop 16).take 4) ++ '-' :: ((l.drop 20).take 12)⟩

/-- `createDeterministicEventId` of the appointments script: hashes the full
body, arrival timestamp included. -/
def createDeterministicEventIdAppt (body : JVal) (ns : String) : String :=
  md5ToUuid (md5 (ns ++ ":" ++ canonicalStringify body))

/-- `{...body}` followed by `delete bodyWithoutTimestamp.timestamp` (the
handler only ever applies it to a plain object). -/
def deleteTimestamp : JVal → JVal
  | .obj l => .obj (l.filter (fun p => p.1 != "timestamp"))
  | v => v

/-- `createDeterministicEventId` of the communications script: strips the
top-level `timestamp` field before hashing. -/
def createDeterministicEventIdComm (body : JVal) (ns : String) : String :=
  md5ToUuid (md5 (ns ++ ":" ++ canonicalStringify (deleteTimestamp body)))

/-- An apostrophe, used in the call-note phrasings below. -/
def apos : String := ⟨[Char.ofNat 39]⟩

/-- `v === s` for a string literal `s`. -/
def strEq (v : JVal) (s : String) : Bool :=
  match v with
  | .str t => t == s
  | _ => false

/-- `v === true`. -/
def isTrueV : JVal → Bool
  | .bool true => true
  | _ => false

mutual
/-- String conversion performed by a template literal (`String(v)`). -/
def jsDisplay : JVal → String
  | .null => "null"
  | .bool true => "true"
  | .bool false => "false"
  | .num n => intStr n
  | .nan => "NaN"
  | .inf true => "-Infinity"
  | .inf false => "Infinity"
  | .str s => s
  | .arr l => String.intercalate "," (jsDisplayList l)
  | .obj _ => "[object Object]"

def jsDisplayList : List JVal → List String
  | [] => []
  | v :: t => jsDisplay v :: jsDisplayList t
end

/-- The appointments script's `VALID_STATUSES` membership test (the `Set.has`
of a non-string is false). -/
def validStatus (v : JVal) : Bool :=
  strEq v "Current" || strEq v "Confirmed" || strEq v "Cancelled" || strEq v "Rescheduled" ||
    strEq v "Missed" || strEq v "Shown" || strEq v "Unsold" || strEq v "Sold" || strEq v "Deleted"

/-- `assertStatus(value, defaultValue)`. -/
def assertStatus (value dflt : JVal) : JVal :=
  if !truthy value then dflt
  else if validStatus value then value else dflt

/-- The appointments script's `VALID_EVENT_TYPES` membership test. -/
def validEventType (s : String) : Bool :=
  ["set", "confirmed", "current", "missed", "shown",
    "sold", "unsold", "cancelled", "rescheduled", "deleted"].contains s

/-- `assertEventType(value)` with the default `null` (the handler only ever
passes the string produced by `detectEventType`). -/
def assertEventType (value : String) : Option String :=
  if value == "" then none
  else
    let normalized := jsLower value
    if validEventType normalized then some normalized else none

/-- Model of the host `Date` parser restricted to the strict ISO-8601 UTC
profile the upstream emits (`YYYY-MM-DDTHH:MM:SSZ`, optionally with a
millisecond part): returns the UTC minute field of a valid string. -/
def isoDigit (c : Char) : Bool := decide (48 ≤ c.toNat ∧ c.toNat ≤ 57)

/-- The tail an ISO-8601 UTC timestamp may end with: `Z` or `.mmmZ`. -/
def isoTail : List Char → Bool
  | ['Z'] => true
  | ['.', p1, p2, p3, 'Z'] => [p1, p2, p3].all isoDigit
  | _ => false

def isoMinutes (s : String) : Option Nat :=
  let twoD := fun (a b : Char) => (a.toNat - 48) * 10 + (b.toNat - 48)
  match s.toList with
  | y1 :: y2 :: y3 :: y4 :: c1 :: m1 :: m2 :: c2 :: d1 :: d2 :: ct :: h1 :: h2 :: c3 ::
      n1 :: n2 :: c4 :: s1 :: s2 :: rest =>
    if c1 = '-' ∧ c2 = '-' ∧ ct = 'T' ∧ c3 = ':' ∧ c4 = ':' ∧
        ([y1, y2, y3, y4, m1, m2, d1, d2, h1, h2, n1, n2, s1, s2].all isoDigit) = true ∧
        1 ≤ twoD m1 m2 ∧ twoD m1 m2 ≤ 12 ∧ 1 ≤ twoD d1 d2 ∧ twoD d1 d2 ≤ 31 ∧
        twoD h1 h2 ≤ 23 ∧ twoD n1 n2 ≤ 59 ∧ twoD s1 s2 ≤ 59 ∧ isoTail rest = true
    then some (twoD n1 n2) else none
  | _ => none

/-- `isOn15MinuteBoundary(dateTimeStr)`: minute-of-hour a multiple of 15.
A number is an epoch-milliseconds `Date`; a string goes through the (modelled)
date parser; other values parse as invalid dates. -/
def isOn15MinuteBoundary (v : JVal) : Bool :=
  if !truthy v then false
  else
    match v with
    | .str s =>
      match isoMinutes s with
      | some m => m % 15 == 0
      | none => false
    | .num n => Int.fmod (Int.fdiv n 60000) 15 == 0
    | _ => false

/-- The own properties of the `statusToEventType` object literal of
`detectEventType`, looked up at the coerced property key `String(status)`. -/
def statusOwnEventType (key : String) : Option String :=
  if key == "Current" then some "current"
  else if key == "Missed" then some "missed"
  else if key == "Shown" then some "shown"
  else if key == "Sold" then some "sold"
  else if key == "Unsold" then some "unsold"
  else if key == "Cancelled" then some "cancelled"
  else if key == "Deleted" then some "deleted"
  else none

/-- The property names an object literal inherits from `Object.prototype`,
each paired with the string its member coerces to in a template literal or
`toString()` call (the ECMAScript NativeFunction string; `constructor` is
the function `Object`, and the `__proto__` accessor yields the plain object
`Object.prototype`).  A property lookup at one of these keys yields the
member — truthy, and never a valid event type — instead of `undefined`.
The member is represented here by that string, which is all the handler
ever observes of it: its truthiness, its failing `VALID_EVENT_TYPES`
membership, and its rendering inside the `Invalid event_type` message. -/
def objectProtoMember : String → Option String
  | "constructor" => some "function Object() \x7b [native code] \x7d"
  | "__proto__" => some "[object Object]"
  | "hasOwnProperty" => some "function hasOwnProperty() \x7b [native code] \x7d"
  | "isPrototypeOf" => some "function isPrototypeOf() \x7b [native code] \x7d"
  | "propertyIsEnumerable" => some "function propertyIsEnumerable() \x7b [native code] \x7d"
  | "toLocaleString" => some "function toLocaleString() \x7b [native code] \x7d"
  | "toString" => some "function toString() \x7b [native code] \x7d"
  | "valueOf" => some "function valueOf() \x7b [native code] \x7d"
  | "__defineGetter__" => some "function __defineGetter__() \x7b [native code] \x7d"
  | "__defineSetter__" => some "function __defineSetter__() \x7b [native code] \x7d"
  | "__lookupGetter__" => some "function __lookupGetter__() \x7b [native code] \x7d"
  | "__lookupSetter__" => some "function __lookupSetter__() \x7b [native code] \x7d"
  | _ => none

/-- `statusToEventType[status]`: JavaScript property lookup on the object
literal at the coerced key `String(status)` — an own key yields its tag, a
key naming an inherited `Object.prototype` member yields that (truthy)
member, and only a key hitting neither is `undefined`. -/
def statusToEventType (status : JVal) : Option String :=
  let key := jsDisplay status
  match statusOwnEventType key with
  | some t => some t
  | none => objectProtoMember key

/-- The `set` rule's condition: Current status + present date_time +
(root dealer_parties OR quarter-hour boundary). -/
def apptSetPred (appointment salesAppointment : JVal) : Bool :=
  let status := fieldOr (fieldOr appointment "appointment_status") "status"
  let dateTime := getOrNullOpt (getField appointment "date_time")
  let hasRootDealerParties := truthy salesAppointment && hasValue (fieldOr salesAppointment "dealer_parties")
  strEq status "Current" && hasValue dateTime && (hasRootDealerParties || isOn15MinuteBoundary dateTime)

/-- The `confirmed` rule's condition: `confirmed_status.confirmed === true`. -/
def apptConfirmedPred (appointment : JVal) : Bool :=
  let confirmedStatus := fieldOr appointment "confirmed_status"
  truthy confirmedStatus && isTrueV (fieldOr confirmedStatus "confirmed")

/-- The `rescheduled` rule's condition. -/
def apptReschedPred (appointment : JVal) : Bool :=
  let apptStatus := fieldOr appointment "appointment_status"
  let details := fieldOr apptStatus "details"
  strEq (fieldOr apptStatus "status") "Reschedule" && truthy details &&
    hasValue (fieldOr details "new_appointment_id")

/-- `detectEventType(appointment, salesAppointment)` from the appointments
script: the priority cascade confirmed → set → rescheduled → status map,
throwing on a missing structure or an unsupported status. -/
def detectEventType (appointment salesAppointment : JVal) : Except String String :=
  if !truthy appointment || !truthy (fieldOr appointment "appointment_status") then
    .error "Invalid payload: missing appointment or appointment_status"
  else if apptConfirmedPred appointment then .ok "confirmed"
  else if apptSetPred appointment salesAppointment then .ok "set"
  else if apptReschedPred appointment then .ok "rescheduled"
  else
    let status := fieldOr (fieldOr appointment "appointment_status") "status"
    match statusToEventType status with
    | some e => .ok e
    | none => .error ("Invalid payload: unsupported appointment status \"" ++ jsDisplay status ++ "\"")

/-- `determineStatus(eventType, appointmentStatus)`. -/
def determineStatus (eventType : String) (appointmentStatus : JVal) : JVal :=
  if eventType == "confirmed" then .str "Confirmed"
  else if eventType == "rescheduled" then .str "Rescheduled"
  else
    let status := fieldOr appointmentStatus "status"
    assertStatus status status

/-- The transformation scripts' shared namespace constant. -/
def NAMESPACE : String := "promax_dex"

/-- A Hookdeck request as the handlers see it: a possibly-absent parsed body
and a possibly-absent headers object.  (`path` and `query` are returned
untouched by the handlers and are not modelled.) -/
structure Request where
  body : Option JVal
  headers : Option (List (String × JVal))

/-- `headers[k]`: reading a property of `undefined` throws a `TypeError`,
which the handlers' catch block turns into the degraded outcome. -/
def readHeader (h : Option (List (String × JVal))) (k : String) : Except String (Option JVal) :=
  match h with
  | none => .error ("TypeError: Cannot read properties of undefined (reading " ++ k ++ ")")
  | some l => .ok (l.lookup k)

/-- A validation-style guard: continue when `ok`, otherwise throw `msg`. -/
def guardE (ok : Bool) (msg : String) : Except String Unit :=
  if ok then .ok () else .error msg

/-- The context assembled by the appointments handler's throwing region
(everything the later, throw-free object building consumes). -/
structure ApptCtx where
  body : List (String × JVal)
  salesAppointment : JVal
  appointment : JVal
  customer_id : JVal
  dealer_id : JVal
  dexWsTimestamp : JVal
  payloadHash : JVal
  appointment_id : JVal
  eventType : String
  eventId : String
  status : JVal
  dateTime : JVal

/-- The appointments handler's validations and throwing extractions, in
source order (body shape, `sales_appointment`, `appointment`, correlation
identifiers, the header read, `appointment_id`, event-type detection). -/
def apptValidate (req : Request) (now : Int) : Except String ApptCtx := do
  let bodyFields ← match req.body with
    | some (.obj l) => Except.ok l
    | _ => Except.error "Invalid payload: body must be an object"
  let body := JVal.obj bodyFields
  let sa := fieldOr body "sales_appointment"
  guardE (truthy sa && typeofObject sa) "Invalid payload: missing required sales_appointment object"
  let appointment := fieldOr sa "appointment"
  guardE (truthy appointment) "Invalid payload: missing appointment object"
  let customer_id := getOrNullOpt (getField body "customer_id")
  let dealer_id := getOrNullOpt (getField body "dealer_id")
  let g := getOrNullOpt (getField body "timestamp")
  let dexWsTimestamp := if truthy g then g else JVal.num now
  let payloadHash ← (readHeader req.headers "idempotency-key").map getOrNullOpt
  guardE (truthy customer_id) "Invalid payload: missing customer_id"
  guardE (truthy dealer_id) "Invalid payload: missing dealer_id"
  let appointment_id := getOrNullOpt (getField appointment "appointment_id")
  guardE (truthy appointment_id) "Invalid payload: missing appointment_id"
  let eventType ← detectEventType appointment sa
  guardE (assertEventType eventType).isSome ("Invalid event_type: \"" ++ eventType ++ "\"")
  let eventId := createDeterministicEventIdAppt body NAMESPACE
  let appointmentStatus := fieldOr appointment "appointment_status"
  let status := determineStatus eventType appointmentStatus
  let dateTime := getOrNullOpt (getField appointment "date_time")
  return {
    body := bodyFields, salesAppointment := sa, appointment := appointment,
    customer_id := customer_id, dealer_id := dealer_id, dexWsTimestamp := dexWsTimestamp,
    payloadHash := payloadHash, appointment_id := appointment_id, eventType := eventType,
    eventId := eventId, status := status, dateTime := dateTime }

/-- `primaryTierEvents` (and the identical `apptUpdatedEvents`). -/
def primaryTierEvents (t : String) : Bool :=
  ["set", "current", "confirmed", "shown", "sold", "rescheduled", "unsold"].contains t

def apptUpdatedEvents (t : String) : Bool :=
  ["set", "current", "confirmed", "shown", "sold", "rescheduled", "unsold"].contains t

/-- The `promax_customer` fields built before the provenance loop. -/
def apptCustomerEntries (ctx : ApptCtx) : List (String × JVal) :=
  let e := [("id", ctx.customer_id), ("dealer_id", ctx.dealer_id)]
  let e := if primaryTierEvents ctx.eventType then
      addIfHasValue (addIfHasValue e "primary_tier" (.num 1)) "last_primary_tier_event" ctx.dexWsTimestamp
    else e
  let e := if ctx.eventType == "set" then addIfHasValue e "last_appt_scheduled_for" ctx.dateTime else e
  let e := if apptUpdatedEvents ctx.eventType then addIfHasValue e "last_appt_updated_at" ctx.dexWsTimestamp
    else e
  e

/-- The `excludedFields` list of the provenance loops. -/
def excludedKey (k : String) : Bool :=
  k == "id" || k == "field_last_received_at" || k == "field_last_received_by"

/-- The provenance loop shared by both handlers: walk the aggregate's fields
in order, skip the identifier and the shadow maps themselves, and stamp the
timestamp/event-id at every key whose value passes `hasValue`. -/
def stampFields (seedAt seedBy : List (String × JVal)) (entries : List (String × JVal))
    (ts eid : JVal) : List (String × JVal) × List (String × JVal) :=
  entries.foldl (fun acc p =>
    if excludedKey p.1 then acc
    else if hasValue p.2 then (objSet acc.1 p.1 ts, objSet acc.2 p.1 eid) else acc)
    (seedAt, seedBy)

/-- The appointments handler's finished `promax_customer`: the fields, then
the two shadow maps (whose accumulators are pre-seeded with `dealer_id`). -/
def apptPromaxCustomer (ctx : ApptCtx) : List (String × JVal) :=
  let entries := apptCustomerEntries ctx
  let m := stampFields [("dealer_id", ctx.dexWsTimestamp)] [("dealer_id", .str ctx.eventId)]
    entries ctx.dexWsTimestamp (.str ctx.eventId)
  entries ++ [("field_last_received_at", .obj m.1), ("field_last_received_by", .obj m.2)]

/-- The appointments handler's `promax_appointment`. -/
def apptPromaxAppointment (ctx : ApptCtx) : List (String × JVal) :=
  let e := [("id", ctx.appointment_id), ("dealer_id", ctx.dealer_id), ("customer_id", ctx.customer_id)]
  if ctx.eventType == "set" then
    let rootDealerParties := getField ctx.salesAppointment "dealer_parties"
    let scheduledBy := match rootDealerParties with
      | some dp => if truthy dp then getOrNullOpt (getField dp "employee_id") else .null
      | none => .null
    let setVia := getOrNullOpt (getField ctx.appointment "set_via")
    let comments := getOrNullOpt (getField ctx.appointment "comments")
    let e := addIfHasValue e "scheduled_at" ctx.dexWsTimestamp
    let e := addIfHasValue e "scheduled_for" ctx.dateTime
    let e := addIfHasValue e "scheduled_by" scheduledBy
    let e := addIfHasValue e "status" ctx.status
    let e := addIfHasValue e "status_updated_at" ctx.dexWsTimestamp
    let e := addIfHasValue e "set_via" setVia
    addIfHasValue e "comments" comments
  else if ctx.eventType == "confirmed" then
    let confirmedStatus := fieldOr ctx.appointment "confirmed_status"
    let confirmedBy := if truthy confirmedStatus then
        (let dp := fieldOr confirmedStatus "dealer_parties"
         if truthy dp then getOrNullOpt (getField dp "employee_id") else .null)
      else .null
    let e := addIfHasValue e "status" ctx.status
    let e := addIfHasValue e "status_updated_at" ctx.dexWsTimestamp
    let e := addIfHasValue e "confirmed_at" ctx.dexWsTimestamp
    addIfHasValue e "confirmed_by" confirmedBy
  else if ctx.eventType == "rescheduled" then
    let details := fieldOr (fieldOr ctx.appointment "appointment_status") "details"
    let newAppointmentId := if truthy details then getOrNullOpt (getField details "new_appointment_id")
      else .null
    let e := addIfHasValue e "status" ctx.status
    let e := addIfHasValue e "status_updated_at" ctx.dexWsTimestamp
    addIfHasValue e "new_appointment_id" newAppointmentId
  else
    let e := addIfHasValue e "status" ctx.status
    addIfHasValue e "status_updated_at" ctx.dexWsTimestamp

/-- The appointments handler's `promax_appointment_update`. -/
def apptPromaxUpdate (ctx : ApptCtx) : List (String × JVal) :=
  let e := [("id", .str ctx.eventId), ("websocket_timestamp", ctx.dexWsTimestamp),
    ("dealer_id", ctx.dealer_id), ("customer_id", ctx.customer_id),
    ("appointment_id", ctx.appointment_id), ("status", ctx.status)]
  let e := if ctx.eventType == "confirmed" then addIfHasValue e "date_time" ctx.dexWsTimestamp
    else addIfHasValue e "date_time" ctx.dateTime
  if ctx.eventType == "set" then
    let rootDealerParties := getField ctx.salesAppointment "dealer_parties"
    let employeeId := match rootDealerParties with
      | some dp => if truthy dp then getOrNullOpt (getField dp "employee_id") else .null
      | none => .null
    let comments := getOrNullOpt (getField ctx.appointment "comments")
    addIfHasValue (addIfHasValue e "employee_id" employeeId) "comments" comments
  else if ctx.eventType == "confirmed" then
    let confirmedStatus := fieldOr ctx.appointment "confirmed_status"
    let employeeId := if truthy confirmedStatus then
        (let dp := fieldOr confirmedStatus "dealer_parties"
         if truthy dp then getOrNullOpt (getField dp "employee_id") else .null)
      else .null
    addIfHasValue e "employee_id" employeeId
  else if ctx.eventType == "rescheduled" then
    let details := fieldOr (fieldOr ctx.appointment "appointment_status") "details"
    let newAppointmentId := if truthy details then getOrNullOpt (getField details "new_appointment_id")
      else .null
    addIfHasValue e "new_appointment_id" newAppointmentId
  else e

/-- The appointments handler's `promax_customer_last_activity`. -/
def apptLastActivity (ctx : ApptCtx) : List (String × JVal) :=
  let e := [("id", ctx.customer_id), ("dealer_id", ctx.dealer_id)]
  if ctx.eventType == "set" then
    addIfHasValue (addIfHasValue e "last_appt_scheduled_for" ctx.dateTime) "last_appt_set" ctx.dexWsTimestamp
  else if ctx.eventType == "current" then addIfHasValue e "last_appt_set" ctx.dexWsTimestamp
  else if ctx.eventType == "confirmed" then addIfHasValue e "last_appt_confirmed" ctx.dexWsTimestamp
  else if ctx.eventType == "missed" then addIfHasValue e "last_appt_missed" ctx.dexWsTimestamp
  else if ctx.eventType == "shown" then addIfHasValue e "last_appt_shown" ctx.dexWsTimestamp
  else if ctx.eventType == "sold" then addIfHasValue e "last_appt_sold" ctx.dexWsTimestamp
  else if ctx.eventType == "unsold" then addIfHasValue e "last_appt_unsold" ctx.dexWsTimestamp
  else if ctx.eventType == "cancelled" then addIfHasValue e "last_appt_cancelled" ctx.dexWsTimestamp
  else if ctx.eventType == "rescheduled" then addIfHasValue e "last_appt_rescheduled" ctx.dexWsTimestamp
  else if ctx.eventType == "deleted" then addIfHasValue e "last_appt_deleted" ctx.dexWsTimestamp
  else e

/-- The root-level `new_appointment_id` field added for rescheduled events
when present (empty otherwise). -/
def apptNewApptRoot (ctx : ApptCtx) : List (String × JVal) :=
  if ctx.eventType == "rescheduled" then
    let details := fieldOr (fieldOr ctx.appointment "appointment_status") "details"
    let newAppointmentId := if truthy details then getOrNullOpt (getField details "new_appointment_id")
      else .null
    if truthy newAppointmentId then [("new_appointment_id", newAppointmentId)] else []
  else []

/-- The appointments handler's final payload (throw-free object building). -/
def apptBuild (ctx : ApptCtx) (nowIso : String) : JVal :=
  let base := [
    ("event", JVal.str "promax_websocket.appointments"),
    ("event_type", JVal.str ctx.eventType),
    ("event_version", JVal.str "1.4"),
    ("hookdeck_sent_at", JVal.str nowIso),
    ("websocket_uuid", JVal.str ctx.eventId),
    ("promax_websocket_timestamp", ctx.dexWsTimestamp),
    ("payload_hash", ctx.payloadHash),
    ("customer_id", ctx.customer_id),
    ("dealer_id", ctx.dealer_id),
    ("appointment_id", ctx.appointment_id),
    ("promax_customer", JVal.obj (apptPromaxCustomer ctx)),
    ("promax_appointment", JVal.obj (apptPromaxAppointment ctx)),
    ("promax_appointment_update", JVal.obj (apptPromaxUpdate ctx)),
    ("promax_customer_last_activity", JVal.obj (apptLastActivity ctx)),
    ("original_payload", JVal.obj ctx.body)]
  .obj (base ++ apptNewApptRoot ctx)

/-- The appointments handler's try block. -/
def apptCore (req : Request) (now : Int) (nowIso : String) : Except String JVal :=
  (apptValidate req now).map (fun ctx => apptBuild ctx nowIso)

/-- The three handler outcomes: a successful transformation, a rethrown
validation failure (the Rejected outcome), or the degraded envelope. -/
inductive Outcome where
  | classified (body : JVal)
  | rejected (message : String)
  | degraded (body : JVal)

/-- `error.message && error.message.startsWith('Invalid payload')`. -/
def errorStartsInvalid (m : String) : Bool :=
  "Invalid payload".toList.isPrefixOf m.toList

/-- The appointments handler's degraded envelope (catch block). -/
def apptDegraded (req : Request) (now : Int) (nowIso : String) (msg : String) : JVal :=
  .obj [
    ("event", .str "promax_websocket.appointments"),
    ("event_type", .str "unknown"),
    ("event_version", .str "1.4"),
    ("hookdeck_sent_at", .str nowIso),
    ("websocket_uuid", .str ("error-" ++ intStr now)),
    ("promax_websocket_timestamp", .num now),
    ("payload_hash", getOrNullOpt (match req.headers with
      | none => none
      | some h => h.lookup "idempotency-key")),
    ("original_payload", req.body.getD .null),
    ("error", .obj [("message", .str msg), ("timestamp", .str nowIso)])]

/-- The appointments `transform` handler: try block, plus the catch block
that rethrows `Invalid payload` errors and degrades everything else. -/
def apptHandler (req : Request) (now : Int) (nowIso : String) : Outcome :=
  match apptCore req now nowIso with
  | .ok b => .classified b
  | .error m =>
    if errorStartsInvalid m then .rejected m
    else .degraded (apptDegraded req now nowIso m)

/-- `needle` occurs as a contiguous segment of the list (JavaScript
`String.prototype.includes`). -/
def listIncludes [BEq α] : List α → List α → Bool
  | needle, [] => needle.isEmpty
  | needle, c :: rest => needle.isPrefixOf (c :: rest) || listIncludes needle rest

def strIncludes (hay sub : String) : Bool := listIncludes sub.toList hay.toList

def isLowerAlpha (c : Char) : Bool := decide (97 ≤ c.toNat ∧ c.toNat ≤ 122)

/-- Occurrence of `tok` not surrounded by lowercase letters: the test the
scripts' `/(?:^|[^a-z])lm(?:[^a-z]|$)/`-shaped regexes perform on an
already-lowercased string. -/
def tokenBoundedAux (tok : List Char) : Option Char → List Char → Bool
  | prev, s =>
    (tok.isPrefixOf s &&
      (match prev with
        | none => true
        | some p => !isLowerAlpha p) &&
      (match s.drop tok.length with
        | [] => true
        | c :: _ => !isLowerAlpha c)) ||
    (match s with
      | [] => false
      | c :: t => tokenBoundedAux tok (some c) t)

def tokenBounded (tok s : String) : Bool := tokenBoundedAux tok.toList none s.toList

/-- The communications script's enum membership tests. -/
def validCommEventType (s : String) : Bool :=
  ["text", "call", "email", "user_note", "call_recording_note", "lead_note"].contains s

def validDisposition (s : String) : Bool :=
  ["voicemail", "no_answer", "hung_up", "not_interested",
    "disconnected", "wrong_number", "busy", "no_note", "unknown"].contains s

def validConsentAction (s : String) : Bool :=
  ["opt_in_request", "opt_out", "opt_in_reply_possible",
    "opt_in_possible", "opt_out_possible", "help"].contains s

def validDirection (s : String) : Bool := ["inbound", "outbound"].contains s

/-- `assertEnum(value, enumSet, defaultValue)`. -/
def assertEnum (value : JVal) (enumHas : String → Bool) (dflt : JVal) : JVal :=
  if !truthy value then dflt
  else
    let normalized := jsLower (jsDisplay value)
    if enumHas normalized then .str normalized else dflt

/-- `normalizePhoneNumber` from the communications script: strip non-digits,
accept 10 digits, drop a leading `1` from 11 digits, otherwise null. -/
def normalizePhoneNumber (phone : JVal) : JVal :=
  if !truthy phone then .null
  else
    let digits := (jsDisplay phone).toList.filter isoDigit
    if digits.length = 11 ∧ digits.headD ' ' = '1' then .str ⟨digits.drop 1⟩
    else if digits.length = 10 then .str ⟨digits⟩
    else .null

/-- `detectConsentAction(body, direction)` from the communications script. -/
def detectConsentAction (body direction : JVal) : Except String JVal :=
  if !truthy body then .ok .null
  else
    match body with
    | .str s =>
      let lowerBody := jsLower (jsTrim s)
      if strIncludes s ("requests permission to send you texts. Reply YES to allow. " ++
          "Reply STOP to end. HELP for help. Msg&data rates may apply.") then
        .ok (.str "opt_in_request")
      else if strEq direction "inbound" then
        if lowerBody == "help" then .ok (.str "help")
        else if lowerBody == "stop" || lowerBody == "unsubscribe" || lowerBody == "stop all" then
          .ok (.str "opt_out")
        else if strIncludes lowerBody "do not text me" || strIncludes lowerBody "stop texting me" ||
            strIncludes lowerBody "stop!" || strIncludes lowerBody "dont text me" ||
            strIncludes lowerBody ("don" ++ apos ++ "t text") then
          .ok (.str "opt_out_possible")
        else if lowerBody == "y" || lowerBody == "agree" then .ok (.str "opt_in_possible")
        else if lowerBody == "yes" then .ok (.str "opt_in_reply_possible")
        else .ok .null
      else .ok .null
    | _ => .error "TypeError: body.includes is not a function"

/-- `detectCallDisposition(body)` from the communications script, with its
priority order exactly as coded: the generic voicemail substrings (priority 1)
are tested before every no-answer phrasing (priority 2). -/
def detectCallDisposition (body : JVal) : Except String String :=
  if !truthy body then .ok "no_note"
  else
    match body with
    | .str s =>
      let trimmed := jsTrim s
      let lower := jsLower trimmed
      if trimmed == "" || lower == "no note added" then .ok "no_note"
      else if strIncludes lower "lvm" || strIncludes lower "vm" ||
          strIncludes lower "left message" || strIncludes lower "left msg" ||
          strIncludes lower "left mssg" || strIncludes lower "voicemail" ||
          strIncludes lower "voice mail" then .ok "voicemail"
      else if tokenBounded "lm" lower then .ok "voicemail"
      else if strIncludes lower "no vm" || strIncludes lower "vm not set up" ||
          strIncludes lower "vm not setup" || strIncludes lower "mb not setup" ||
          strIncludes lower "mb not set up" || strIncludes lower "no answer" ||
          strIncludes lower (apos ++ "t leave message") || strIncludes lower (apos ++ "t leave msg") ||
          strIncludes lower (apos ++ "t leave voicemail") || strIncludes lower (apos ++ "t leave vm") ||
          strIncludes lower (apos ++ "t leave a message") || strIncludes lower (apos ++ "t leave a msg") ||
          strIncludes lower (apos ++ "t leave a voicemail") || strIncludes lower (apos ++ "t leave a vm") ||
          strIncludes lower "not leave message" || strIncludes lower "not leave msg" ||
          strIncludes lower "not leave voicemail" || strIncludes lower "not leave vm" ||
          strIncludes lower "not leave a message" || strIncludes lower "not leave a msg" ||
          strIncludes lower "not leave a voicemail" || strIncludes lower "not leave a vm" then
        .ok "no_answer"
      else if tokenBounded "na" lower then .ok "no_answer"
      else if strIncludes lower "hung up" || strIncludes lower "hang up" ||
          strIncludes lower "hangup" || strIncludes lower "hungup" then .ok "hung_up"
      else if strIncludes lower "not interested" then .ok "not_interested"
      else if strIncludes lower "disconnected" || strIncludes lower "dropped" then .ok "disconnected"
      else if strIncludes lower "wrong number" || strIncludes lower "wrong phone" ||
          strIncludes lower "invalid phone" || strIncludes lower "invalid number" ||
          strIncludes lower "bad number" then .ok "wrong_number"
      else if strIncludes lower "busy" || strIncludes lower "busy signal" ||
          strIncludes lower "line busy" then .ok "busy"
      else .ok "unknown"
    | _ => .error "TypeError: body.trim is not a function"

/-- Split on `/\r?\n/` (a lone carriage return is not a separator). -/
def splitLinesAux (cur : List Char) : List Char → List (List Char)
  | [] => [cur.reverse]
  | '\r' :: '\n' :: rest => cur.reverse :: splitLinesAux [] rest
  | '\n' :: rest => cur.reverse :: splitLinesAux [] rest
  | c :: rest => splitLinesAux (c :: cur) rest

/-- Association-list assignment for the string map `data` of
`parseCallRecordingNote` (a repeated key overwrites). -/
def setAssocStr (l : List (String × String)) (k v : String) : List (String × String) :=
  if l.any (fun p => p.1 == k) then l.map (fun p => if p.1 == k then (p.1, v) else p)
  else l ++ [(k, v)]

/-- Index of the first `:` in a line, and the trimmed key/value around it. -/
def lineKeyValue (line : List Char) : Option (String × String) :=
  match findColon [] line with
  | none => none
  | some (before, after) =>
    let value := jsTrim ⟨after⟩
    if value == "" then none else some (jsTrim ⟨before.reverse⟩, value)
where
  findColon (acc : List Char) : List Char → Option (List Char × List Char)
    | [] => none
    | ':' :: rest => some (acc, rest)
    | c :: rest => findColon (c :: acc) rest

/-- The key/value lines of a call recording note, accumulated in order. -/
def callRecData (lines : List (List Char)) : List (String × String) :=
  lines.foldl (fun acc line =>
    match lineKeyValue line with
    | some (k, v) => setAssocStr acc k v
    | none => acc) []

/-- `parseInt(value, 10)` on an already-trimmed digit string; a value with no
leading digits yields NaN, which the caller's `hasValue` gate drops exactly
as null is dropped, so it is collapsed to null here. -/
def jsParseInt (s : String) : JVal :=
  let l := s.toList
  let (negative, l) := match l with
    | '-' :: rest => (true, rest)
    | '+' :: rest => (false, rest)
    | rest => (false, rest)
  let digits := l.takeWhile isoDigit
  if digits.isEmpty then .null
  else
    let n : Nat := digits.foldl (fun acc c => acc * 10 + (c.toNat - 48)) 0
    .num (if negative then -(n : Int) else (n : Int))

/-- The record `parseCallRecordingNote` returns. -/
structure CallRecParse where
  talk_time : JVal
  disposition : JVal
  from_number : JVal
  to_number : JVal
  recording_link : JVal

/-- `parseCallRecordingNote(body)` from the communications script (a falsy
body yields the empty record, whose reads are all undefined). -/
def parseCallRecordingNote (body : JVal) : Except String CallRecParse :=
  if !truthy body then
    .ok { talk_time := .null, disposition := .null, from_number := .null,
          to_number := .null, recording_link := .null }
  else
    match body with
    | .str s =>
      let data := callRecData (splitLinesAux [] s.toList)
      .ok {
        talk_time := match data.lookup "DurationSeconds" with
          | some v => jsParseInt v
          | none => .null,
        disposition := match data.lookup "CallDnaClassification" with
          | some v => .str v
          | none => .null,
        from_number := normalizePhoneNumber (match data.lookup "DisplayCallerId" with
          | some v => .str v
          | none => .null),
        to_number := normalizePhoneNumber (match data.lookup "ClickToCallForwardNumber" with
          | some v => .str v
          | none => .null),
        recording_link := match data.lookup "CallAudioURL" with
          | some v => .str v
          | none => .null }
    | _ => .error "TypeError: body.split is not a function"

/-- Suffix after the first occurrence of `marker`, when present. -/
def findMarker (marker : List Char) : List Char → Option (List Char)
  | [] => if marker.isEmpty then some [] else none
  | c :: rest =>
    if marker.isPrefixOf (c :: rest) then some ((c :: rest).drop marker.length)
    else findMarker marker rest

/-- `extractLeadNoteBody(body)`: the text after "Original Message:", trimmed,
or the whole trimmed body; empty results are null. -/
def extractLeadNoteBody (body : JVal) : Except String JVal :=
  if !truthy body then .ok .null
  else
    match body with
    | .str s =>
      match findMarker "Original Message:".toList s.toList with
      | some tail =>
        let extracted := jsTrim ⟨tail⟩
        .ok (if extracted == "" then .null else .str extracted)
      | none =>
        let t := jsTrim s
        .ok (if t == "" then .null else .str t)
    | _ => .error "TypeError: body.indexOf is not a function"

/-- `extractLeadEventName(body)`: the rest of the line after "Lead Event:". -/
def extractLeadEventName (body : JVal) : Except String JVal :=
  if !truthy body then .ok .null
  else
    match body with
    | .str s =>
      match findMarker "Lead Event:".toList s.toList with
      | none => .ok .null
      | some afterMarker =>
        let eventName := jsTrim ⟨afterMarker.takeWhile (fun c => c ≠ '\r' ∧ c ≠ '\n')⟩
        .ok (if eventName == "" then .null else .str eventName)
    | _ => .error "TypeError: body.indexOf is not a function"

/-- `normalizeDirection(direction)`. -/
def normalizeDirection (direction : JVal) : Except String JVal :=
  if !truthy direction then .ok .null
  else
    match direction with
    | .str s =>
      let normalized := jsLower s
      if normalized == "outgoing" then .ok (.str "outbound")
      else if normalized == "incoming" then .ok (.str "inbound")
      else .ok (.str normalized)
    | _ => .error "TypeError: direction.toLowerCase is not a function"

/-- `normalizeEventType(type, direction)`. -/
def normalizeEventType (type direction : JVal) : Except String JVal :=
  if !truthy type then .ok .null
  else
    match type with
    | .str s =>
      let normalized := jsLower s
      if normalized == "text" then .ok (.str "text")
      else if normalized == "phone" then .ok (.str "call")
      else if normalized == "email" then .ok (.str "email")
      else if normalized == "lead" then .ok (.str "lead_note")
      else if normalized == "note" then
        if !truthy direction then .ok (.str "user_note")
        else
          match direction with
          | .str d => if jsLower d == "outgoing" then .ok (.str "call_recording_note") else .ok .null
          | _ => .error "TypeError: direction.toLowerCase is not a function"
      else .ok .null
    | _ => .error "TypeError: type.toLowerCase is not a function"

/-- The cosmetic body-cleaning internals the specification treats as external
collaborators (the regex-based SMS/e-mail cleaners and the carrier-footer
phone extractor); the handler theorems hold for every choice of them. -/
structure CommExternals where
  smsClean : String → String
  emailClean : String → Option String
  phoneExtract : String → Option String

/-- `cleanSmsBody(body)`: null for a falsy body, the (external) regex
replacement and trim on a string, and a `TypeError` on any other value. -/
def cleanSmsBody (ext : CommExternals) (body : JVal) : Except String JVal :=
  if !truthy body then .ok .null
  else
    match body with
    | .str s => .ok (.str (ext.smsClean s))
    | _ => .error "TypeError: body.replace is not a function"

/-- `cleanEmailBody(body)`: null for a falsy body or an empty cleaning
result, the (external) HTML/CSS stripping on a string, a `TypeError`
otherwise. -/
def cleanEmailBody (ext : CommExternals) (body : JVal) : Except String JVal :=
  if !truthy body then .ok .null
  else
    match body with
    | .str s =>
      .ok (match ext.emailClean s with
        | some t => .str t
        | none => .null)
    | _ => .error "TypeError: body.replace is not a function"

/-- `extractPhoneNumber(body)`: the (external) carrier-footer match. -/
def extractPhoneNumber (ext : CommExternals) (body : JVal) : Except String JVal :=
  if !truthy body then .ok .null
  else
    match body with
    | .str s =>
      .ok (match ext.phoneExtract s with
        | some t => .str t
        | none => .null)
    | _ => .error "TypeError: body.match is not a function"

/-- The event-type-specific values of the communications handler (the `let`
block initialised before the `if` chain; `cleanedBody` starts as `rawBody`). -/
structure CommSpecific where
  fromNumber : JVal := .null
  toNumber : JVal := .null
  cleanedBody : JVal
  subject : JVal := .null
  consentAction : JVal := .null
  disposition : JVal := .null
  talkTime : JVal := .null
  recordingLink : JVal := .null
  leadEventName : JVal := .null

/-- The context assembled by the communications handler's throwing region. -/
structure CommCtx where
  body : List (String × JVal)
  customer_id : JVal
  dealer_id : JVal
  employee_id : JVal
  dexWsTimestamp : JVal
  payloadHash : JVal
  eventType : String
  direction : JVal
  rawBody : JVal
  occurredAt : JVal
  eventId : String
  special : CommSpecific

/-- The communications handler's validations and throwing extractions, in
source order. -/
def commValidate (ext : CommExternals) (req : Request) (now : Int) : Except String CommCtx := do
  let bodyFields ← match req.body with
    | some (.obj l) => Except.ok l
    | _ => Except.error "Invalid payload: body must be an object"
  let body := JVal.obj bodyFields
  let communications := fieldOr body "communications"
  guardE (truthy communications && typeofObject communications)
    "Invalid payload: missing required communications object"
  let customer_id := getOrNullOpt (getField body "customer_id")
  let dealer_id := getOrNullOpt (getField body "dealer_id")
  let employee_id := getOrNullOpt (getField communications "employee_id")
  let g := getOrNullOpt (getField body "timestamp")
  let dexWsTimestamp := if truthy g then g else JVal.num now
  let payloadHash ← (readHeader req.headers "idempotency-key").map getOrNullOpt
  let messages := match getField communications "messages" with
    | some (.arr l) => l
    | _ => []
  guardE (!messages.isEmpty) "Invalid payload: messages array is empty"
  let message := messages.headD .null
  guardE (truthy message && truthy (fieldOr message "date_time"))
    "Invalid payload: message missing required date_time"
  let messageType := getOrNullOpt (getField message "type")
  let messageDirection := fieldOr message "direction"
  let eventTypeV ← normalizeEventType messageType messageDirection
  let eventType ← match eventTypeV with
    | .str e => Except.ok e
    | _ => Except.error ("Invalid payload: unsupported message type \"" ++ jsDisplay messageType ++
        "\" with direction \"" ++ jsDisplay messageDirection ++ "\"")
  guardE (truthy (assertEnum (.str eventType) validCommEventType .null))
    ("Invalid event_type: \"" ++ eventType ++ "\"")
  let direction ← if truthy messageDirection then normalizeDirection messageDirection
    else pure JVal.null
  let rawBody := getOrNullOpt (getField message "body")
  let rawSubject := getOrNullOpt (getField message "subject")
  let occurredAt := getOrNullOpt (getField message "date_time")
  let eventId := createDeterministicEventIdComm body NAMESPACE
  let special ←
    if eventType == "text" then do
      let fromNumber ← if strEq direction "outbound" then extractPhoneNumber ext rawBody
        else pure JVal.null
      let cleanedBody ← cleanSmsBody ext rawBody
      let consent0 ← detectConsentAction rawBody direction
      let consentAction := if truthy consent0 then assertEnum consent0 validConsentAction .null
        else consent0
      pure { fromNumber := fromNumber, cleanedBody := cleanedBody,
             consentAction := consentAction : CommSpecific }
    else if eventType == "call" then do
      let disposition0 ← detectCallDisposition rawBody
      pure { cleanedBody := rawBody,
             disposition := assertEnum (.str disposition0) validDisposition (.str "unknown") :
             CommSpecific }
    else if eventType == "email" then do
      let cleanedBody ← cleanEmailBody ext rawBody
      pure { cleanedBody := cleanedBody, subject := rawSubject : CommSpecific }
    else if eventType == "call_recording_note" then do
      let parsed ← parseCallRecordingNote rawBody
      pure { cleanedBody := rawBody, talkTime := parsed.talk_time,
             disposition := if truthy parsed.disposition then
                 assertEnum parsed.disposition validDisposition .null
               else parsed.disposition,
             fromNumber := parsed.from_number, toNumber := parsed.to_number,
             recordingLink := parsed.recording_link : CommSpecific }
    else if eventType == "lead_note" then do
      let cleanedBody ← extractLeadNoteBody rawBody
      let leadEventName ← extractLeadEventName rawBody
      pure { cleanedBody := cleanedBody, leadEventName := leadEventName : CommSpecific }
    else pure { cleanedBody := rawBody : CommSpecific }
  return {
    body := bodyFields, customer_id := customer_id, dealer_id := dealer_id,
    employee_id := employee_id, dexWsTimestamp := dexWsTimestamp, payloadHash := payloadHash,
    eventType := eventType, direction := direction, rawBody := rawBody,
    occurredAt := occurredAt, eventId := eventId, special := special }

/-- The last-communication timestamps and primary tier computed before the
`promax_customer` build: `(lastIbSms, lastObSms, lastIbCall, lastObCall,
primaryTier, lastPrimaryTierEvent)`. -/
def commTierData (ctx : CommCtx) : JVal × JVal × JVal × JVal × JVal × JVal :=
  if ctx.eventType == "text" then
    let isOptOut := strEq ctx.special.consentAction "opt_out"
    if strEq ctx.direction "inbound" then
      if !isOptOut then (ctx.occurredAt, .null, .null, .null, .num 2, ctx.occurredAt)
      else (.null, .null, .null, .null, .null, .null)
    else if strEq ctx.direction "outbound" then
      (.null, ctx.occurredAt, .null, .null, .num 3, ctx.occurredAt)
    else (.null, .null, .null, .null, .null, .null)
  else if ctx.eventType == "call" then
    if strEq ctx.direction "inbound" then (.null, .null, ctx.occurredAt, .null, .num 2, ctx.occurredAt)
    else if strEq ctx.direction "outbound" then
      (.null, .null, .null, ctx.occurredAt, .num 3, ctx.occurredAt)
    else (.null, .null, .null, .null, .null, .null)
  else if ctx.eventType == "lead_note" then
    (.null, .null, .null, .null, .num 1, ctx.occurredAt)
  else (.null, .null, .null, .null, .null, .null)

/-- The communications handler's `promax_customer` fields before the
provenance loop. -/
def commCustomerEntries (ctx : CommCtx) : List (String × JVal) :=
  let td := commTierData ctx
  let e := [("id", ctx.customer_id), ("dealer_id", ctx.dealer_id)]
  if ctx.eventType == "text" || ctx.eventType == "call" then
    let e := addIfHasValue e "last_ib_sms" td.1
    let e := addIfHasValue e "last_ob_sms" td.2.1
    let e := addIfHasValue e "last_ib_call" td.2.2.1
    let e := addIfHasValue e "last_ob_call" td.2.2.2.1
    let e := addIfHasValue e "primary_tier" td.2.2.2.2.1
    addIfHasValue e "last_primary_tier_event" td.2.2.2.2.2
  else if ctx.eventType == "lead_note" then
    let e := addIfHasValue e "primary_tier" td.2.2.2.2.1
    let e := addIfHasValue e "last_primary_tier_event" td.2.2.2.2.2
    addIfHasValue e "last_lead" ctx.occurredAt
  else e

/-- The communications handler's finished `promax_customer` (its provenance
accumulators start empty). -/
def commPromaxCustomer (ctx : CommCtx) : List (String × JVal) :=
  let entries := commCustomerEntries ctx
  let m := stampFields [] [] entries ctx.dexWsTimestamp (.str ctx.eventId)
  entries ++ [("field_last_received_at", .obj m.1), ("field_last_received_by", .obj m.2)]

/-- The communications handler's `promax_communication`. -/
def commPromaxCommunication (ctx : CommCtx) : List (String × JVal) :=
  let e := [("id", JVal.str ctx.eventId), ("occurred_at", ctx.occurredAt),
    ("customer_id", ctx.customer_id), ("dealer_id", ctx.dealer_id)]
  let e := if ctx.eventType != "call_recording_note" && ctx.eventType != "lead_note" then
      addIfHasValue e "employee_id" ctx.employee_id
    else e
  let e := if ctx.eventType != "user_note" && ctx.eventType != "lead_note" then
      addIfHasValue e "direction" (assertEnum ctx.direction validDirection .null)
    else e
  let e := if ctx.eventType == "email" then addIfHasValue e "subject" ctx.special.subject else e
  let e := if ctx.eventType != "call_recording_note" then
      addIfHasValue e "body" ctx.special.cleanedBody
    else e
  if ctx.eventType == "text" then
    addIfHasValue (addIfHasValue e "consent_action" ctx.special.consentAction)
      "from_number" ctx.special.fromNumber
  else if ctx.eventType == "call" then addIfHasValue e "disposition" ctx.special.disposition
  else if ctx.eventType == "call_recording_note" then
    let e := addIfHasValue e "talk_time" ctx.special.talkTime
    let e := addIfHasValue e "disposition" ctx.special.disposition
    let e := addIfHasValue e "from_number" ctx.special.fromNumber
    let e := addIfHasValue e "to_number" ctx.special.toNumber
    addIfHasValue e "recording_link" ctx.special.recordingLink
  else e

/-- The communications handler's `promax_customer_last_activity` (these
fields are plain assignments, not `hasValue`-gated). -/
def commLastActivity (ctx : CommCtx) : List (String × JVal) :=
  let e := [("id", ctx.customer_id), ("dealer_id", ctx.dealer_id)]
  let commType : Option String :=
    if ctx.eventType == "text" then some "sms"
    else if ctx.eventType == "call" then some "call"
    else if ctx.eventType == "email" then some "email"
    else none
  match commType with
  | some ct =>
    if strEq ctx.direction "inbound" then e ++ [("last_ib_" ++ ct, ctx.dexWsTimestamp)]
    else if strEq ctx.direction "outbound" then e ++ [("last_ob_" ++ ct, ctx.dexWsTimestamp)]
    else e
  | none =>
    if ctx.eventType == "lead_note" then
      let e := e ++ [("last_lead_note", ctx.dexWsTimestamp)]
      if truthy ctx.special.leadEventName then
        e ++ [("last_lead_" ++ jsDisplay ctx.special.leadEventName, ctx.dexWsTimestamp)]
      else e
    else if ctx.eventType == "user_note" || ctx.eventType == "call_recording_note" then
      e ++ [("last_" ++ ctx.eventType, ctx.dexWsTimestamp)]
    else e

/-- The communications handler's final payload. -/
def commBuild (ctx : CommCtx) (nowIso : String) : JVal :=
  .obj [
    ("event", .str "promax_websocket.communications"),
    ("event_type", .str ctx.eventType),
    ("event_version", .str "2.7"),
    ("hookdeck_sent_at", .str nowIso),
    ("websocket_uuid", .str ctx.eventId),
    ("promax_websocket_timestamp", ctx.dexWsTimestamp),
    ("payload_hash", ctx.payloadHash),
    ("customer_id", ctx.customer_id),
    ("dealer_id", ctx.dealer_id),
    ("promax_customer", .obj (commPromaxCustomer ctx)),
    ("promax_communication", .obj (commPromaxCommunication ctx)),
    ("promax_customer_last_activity", .obj (commLastActivity ctx)),
    ("original_payload", .obj ctx.body)]

/-- The communications handler's try block. -/
def commCore (ext : CommExternals) (req : Request) (now : Int) (nowIso : String) :
    Except String JVal :=
  (commValidate ext req now).map (fun ctx => commBuild ctx nowIso)

/-- The communications handler's degraded envelope (catch block). -/
def commDegraded (req : Request) (now : Int) (nowIso : String) (msg : String) : JVal :=
  .obj [
    ("event", .str "promax_websocket.communications"),
    ("event_type", .str "unknown"),
    ("event_version", .str "2.7"),
    ("hookdeck_sent_at", .str nowIso),
    ("websocket_uuid", .str ("error-" ++ intStr now)),
    ("promax_websocket_timestamp", .num now),
    ("payload_hash", getOrNullOpt (match req.headers with
      | none => none
      | some h => h.lookup "idempotency-key")),
    ("original_payload", req.body.getD .null),
    ("error", .obj [("message", .str msg), ("timestamp", .str nowIso)])]

/-- The communications `transform` handler. -/
def commHandler (ext : CommExternals) (req : Request) (now : Int) (nowIso : String) : Outcome :=
  match commCore ext req now nowIso with
  | .ok b => .classified b
  | .error m =>
    if errorStartsInvalid m then .rejected m
    else .degraded (commDegraded req now nowIso m)

mutual
/-- `buildNestedMetadata(obj, timestamp, eventId)` from the customer script:
stamp scalar fields passing `hasValue`, recurse into non-empty plain-object
fields (nesting the sub-maps at the same key), and return null maps when
nothing was stamped.  `none` models the null returned for a non-object
input. -/
def buildNestedMetadata (obj ts eid : JVal) : Option (JVal × JVal) :=
  match obj with
  | .obj l =>
    let m := bnmEntries l ts eid
    some (if m.1.isEmpty then .null else .obj m.1, if m.2.isEmpty then .null else .obj m.2)
  | _ => none

/-- The `for (const [key, value] of Object.entries(obj))` loop of
`buildNestedMetadata`, returning the accumulated timestamp and attribution
fields in order. -/
def bnmEntries (l : List (String × JVal)) (ts eid : JVal) :
    List (String × JVal) × List (String × JVal) :=
  match l with
  | [] => ([], [])
  | (k, value) :: rest =>
    let r := bnmEntries rest ts eid
    if hasValue value && !typeofObject value then ((k, ts) :: r.1, (k, eid) :: r.2)
    else if typeofObject value && !isArrayV value && hasValue value then
      match buildNestedMetadata value ts eid with
      | some (nt, na) =>
        match nt with
        | .obj nl => if !nl.isEmpty then ((k, nt) :: r.1, (k, na) :: r.2) else r
        | _ => r
      | none => r
    else r
end

/-- The validation prefix of the notifications handler
(`notifications_other.js`): the body-shape check, the notifications-array
check, the extraction of the correlation identifiers, the timestamp
fallback and the header read, and the two correlation checks, in source
order.  On success it returns `(customer_id, dealer_id, dexWsTimestamp,
payloadHash)`, the values the rest of that handler consumes. -/
def notifGate (req : Request) (now : Int) : Except String (JVal × JVal × JVal × JVal) := do
  let bodyFields ← match req.body with
    | some (.obj l) => Except.ok l
    | _ => Except.error "Invalid payload: body must be an object"
  let body := JVal.obj bodyFields
  let notifOk := match getField body "notifications" with
    | some (.arr l) => !l.isEmpty
    | _ => false
  guardE notifOk "Invalid payload: missing or empty notifications array"
  let customer_id := getOrNullOpt (getField body "customer_id")
  let dealer_id := getOrNullOpt (getField body "dealer_id")
  let g := getOrNullOpt (getField body "timestamp")
  let dexWsTimestamp := if truthy g then g else JVal.num now
  let payloadHash ← (readHeader req.headers "idempotency-key").map getOrNullOpt
  guardE (truthy customer_id) "Invalid payload: missing required customer_id"
  guardE (truthy dealer_id) "Invalid payload: missing required dealer_id"
  return (customer_id, dealer_id, dexWsTimestamp, payloadHash)

theorem charListLe_total : ∀ a b : List Char, charListLe a b = true ∨ charListLe b a = true := by
  intro a
  induction a with
  | nil => intro b; left; rfl
  | cons x xs ih =>
    intro b
    cases b with
    | nil => right; rfl
    | cons y ys =>
      by_cases hxy : x = y
      · subst hxy
        simp only [charListLe, if_pos rfl]
        exact ih ys
      · have hyx : ¬ y = x := fun h => hxy h.symm
        simp only [charListLe, if_neg hxy, if_neg hyx]
        rcases Nat.lt_or_ge x.toNat y.toNat with h | h
        · left; exact decide_eq_true h
        · right
          have : y.toNat < x.toNat := by
            rcases Nat.lt_or_ge y.toNat x.toNat with h2 | h2
            · exact h2
            · exact absurd (by
                apply Char.eq_of_val_eq
                apply UInt32.eq_of_val_eq
                exact Fin.eq_of_val_eq (Nat.le_antisymm h2 h)) hxy
          exact decide_eq_true this

theorem charListLe_antisymm : ∀ a b : List Char, charListLe a b = true → charListLe b a = true → a = b := by
  intro a
  induction a with
  | nil =>
    intro b _ hba
    cases b with
    | nil => rfl
    | cons y ys => simp [charListLe] at hba
  | cons x xs ih =>
    intro b hab hba
    cases b with
    | nil => simp [charListLe] at hab
    | cons y ys =>
      by_cases hxy : x = y
      · subst hxy
        simp only [charListLe, if_pos rfl] at hab hba
        exact congrArg (x :: ·) (ih ys hab hba)
      · have hyx : ¬ y = x := fun h => hxy h.symm
        simp only [charListLe, if_neg hxy, if_neg hyx] at hab hba
        exact absurd (Nat.lt_trans (of_decide_eq_true hab) (of_decide_eq_true hba))
          (Nat.lt_irrefl _)

theorem charListLe_trans :
    ∀ a b c : List Char, charListLe a b = true → charListLe b c = true → charListLe a c = true := by
  intro a
  induction a with
  | nil => intro b c _ _; rfl
  | cons x xs ih =>
    intro b c hab hbc
    cases b with
    | nil => simp [charListLe] at hab
    | cons y ys =>
      cases c with
      | nil => simp [charListLe] at hbc
      | cons z zs =>
        by_cases hxy : x = y
        · subst hxy
          simp only [charListLe, if_pos rfl] at hab
          by_cases hyz : x = z
          · subst hyz
            simp only [charListLe, if_pos rfl] at hbc ⊢
            exact ih ys zs hab hbc
          · simp only [charListLe, if_neg hyz] at hbc ⊢
            exact hbc
        · simp only [charListLe, if_neg hxy] at hab
          have hxyn : x.toNat < y.toNat := of_decide_eq_true hab
          by_cases hyz : y = z
          · subst hyz
            simp only [charListLe, if_neg hxy]
            exact decide_eq_true hxyn
          · simp only [charListLe, if_neg hyz] at hbc
            have hyzn : y.toNat < z.toNat := of_decide_eq_true hbc
            have hxzn : x.toNat < z.toNat := Nat.lt_trans hxyn hyzn
            have hxz : ¬ x = z := by
              intro h
              subst h
              exact Nat.lt_irrefl _ hxzn
            simp only [charListLe, if_neg hxz]
            exact decide_eq_true hxzn

theorem strLe_total (s t : String) : strLe s t = true ∨ strLe t s = true :=
  charListLe_total s.toList t.toList

theorem strLe_trans {s t u : String} (h1 : strLe s t = true) (h2 : strLe t u = true) :
    strLe s u = true :=
  charListLe_trans s.toList t.toList u.toList h1 h2

theorem strLe_antisymm {s t : String} (h1 : strLe s t = true) (h2 : strLe t s = true) : s = t := by
  cases s with
  | mk ds =>
    cases t with
    | mk dt =>
      have : ds = dt := charListLe_antisymm ds dt h1 h2
      simp [this]

mutual
/-- Structural equality of values up to reordering: object fields may be
permuted at any nesting level, and, when the flag is `true` (the
order-insensitive case), array elements may be permuted as well. -/
inductive JEquiv : Bool → JVal → JVal → Prop where
  | null {ap} : JEquiv ap .null .null
  | bool {ap} (b : Bool) : JEquiv ap (.bool b) (.bool b)
  | num {ap} (n : Int) : JEquiv ap (.num n) (.num n)
  | nan {ap} : JEquiv ap .nan .nan
  | inf {ap} (b : Bool) : JEquiv ap (.inf b) (.inf b)
  | str {ap} (s : String) : JEquiv ap (.str s) (.str s)
  | arr {ap l m} : JEquivList ap l m → JEquiv ap (.arr l) (.arr m)
  | arrPerm {l l₂ m} : l.Perm l₂ → JEquivList true l₂ m → JEquiv true (.arr l) (.arr m)
  | obj {ap l l₂ m} : l.Perm l₂ → JEquivFields ap l₂ m → JEquiv ap (.obj l) (.obj m)

/-- Pointwise `JEquiv` on element lists. -/
inductive JEquivList : Bool → List JVal → List JVal → Prop where
  | nil {ap} : JEquivList ap [] []
  | cons {ap v w l m} : JEquiv ap v w → JEquivList ap l m → JEquivList ap (v :: l) (w :: m)

/-- Pointwise `JEquiv` on field lists with identical keys. -/
inductive JEquivFields : Bool → List (String × JVal) → List (String × JVal) → Prop where
  | nil {ap} : JEquivFields ap [] []
  | cons {ap v w l m} (k : String) :
    JEquiv ap v w → JEquivFields ap l m → JEquivFields ap ((k, v) :: l) ((k, w) :: m)
end

/-- The keys of a field list are pairwise distinct (JavaScript objects
cannot carry a duplicate key). -/
def wfKeysList : List (String × JVal) → Bool
  | [] => true
  | (k, _) :: t => !(t.any (fun p => p.1 == k)) && wfKeysList t

mutual
/-- Well-formedness of a value as a JavaScript object graph: every object's
keys are distinct, recursively. -/
def wfJ : JVal → Bool
  | .arr l => wfJList l
  | .obj l => wfKeysList l && wfJFields l
  | _ => true

def wfJList : List JVal → Bool
  | [] => true
  | v :: t => wfJ v && wfJList t

def wfJFields : List (String × JVal) → Bool
  | [] => true
  | (_, v) :: t => wfJ v && wfJFields t
end

theorem stringifyElems_eq (l : List JVal) : stringifyElems l = l.map jsonStringify := by
  induction l with
  | nil => rfl
  | cons v t ih => simp [stringifyElems, ih]

theorem stringifyFields_eq (l : List (String × JVal)) :
    stringifyFields l = l.map (fun p => quoteString p.1 ++ ":" ++ jsonStringify p.2) := by
  induction l with
  | nil => rfl
  | cons p t ih => cases p; simp [stringifyFields, ih]

theorem canonEncList_eq (l : List JVal) : canonEncList l = l.map canonEnc := by
  induction l with
  | nil => rfl
  | cons v t ih => simp [canonEncList, ih]

theorem canonEncFields_eq (l : List (String × JVal)) :
    canonEncFields l = l.map (fun p => (p.1, canonEnc p.2)) := by
  induction l with
  | nil => rfl
  | cons p t ih => cases p; simp [canonEncFields, ih]

theorem stableEncList_eq (l : List JVal) : stableEncList l = l.map stableEnc := by
  induction l with
  | nil => rfl
  | cons v t ih => simp [stableEncList, ih]

theorem stableEncFields_eq (l : List (String × JVal)) :
    stableEncFields l = l.map (fun p => (p.1, stableEnc p.2)) := by
  induction l with
  | nil => rfl
  | cons p t ih => cases p; simp [stableEncFields, ih]

theorem wfKeysList_nodup {l : List (String × JVal)} (h : wfKeysList l = true) :
    (l.map Prod.fst).Nodup := by
  induction l with
  | nil => simp
  | cons p t ih =>
    cases p with
    | mk k v =>
      simp only [wfKeysList, Bool.and_eq_true, Bool.not_eq_true'] at h
      refine List.nodup_cons.mpr ⟨?_, ih h.2⟩
      intro hmem
      rcases List.mem_map.mp hmem with ⟨q, hq, hqk⟩
      have : t.any (fun p => p.1 == k) = true :=
        List.any_eq_true.mpr ⟨q, hq, by simp [hqk]⟩
      rw [h.1] at this
      exact Bool.false_ne_true this

theorem sortBySer_map_stringify {A B : List JVal}
    (hperm : (A.map jsonStringify).Perm (B.map jsonStringify)) :
    (sortBySer A).map jsonStringify = (sortBySer B).map jsonStringify := by
  letI : IsTotal JVal (fun a b => strLe (jsonStringify a) (jsonStringify b) = true) :=
    ⟨fun a b => strLe_total _ _⟩
  letI : IsTrans JVal (fun a b => strLe (jsonStringify a) (jsonStringify b) = true) :=
    ⟨fun _ _ _ => strLe_trans⟩
  letI : IsAntisymm String (fun s t => strLe s t = true) := ⟨fun _ _ => strLe_antisymm⟩
  have hs1 : List.Sorted (fun s t => strLe s t = true) ((sortBySer A).map jsonStringify) := by
    have := List.sorted_insertionSort
      (fun a b => strLe (jsonStringify a) (jsonStringify b) = true) A
    exact List.pairwise_map.mpr this
  have hs2 : List.Sorted (fun s t => strLe s t = true) ((sortBySer B).map jsonStringify) := by
    have := List.sorted_insertionSort
      (fun a b => strLe (jsonStringify a) (jsonStringify b) = true) B
    exact List.pairwise_map.mpr this
  have hp : ((sortBySer A).map jsonStringify).Perm ((sortBySer B).map jsonStringify) := by
    have h1 := (List.perm_insertionSort
      (fun a b => strLe (jsonStringify a) (jsonStringify b) = true) A).map jsonStringify
    have h2 := (List.perm_insertionSort
      (fun a b => strLe (jsonStringify a) (jsonStringify b) = true) B).map jsonStringify
    exact (h1.trans hperm).trans h2.symm
  exact List.eq_of_perm_of_sorted hp hs1 hs2

theorem sortByKey_map_proj (g : JVal → String) {E F : List (String × JVal)}
    (hnd : (E.map Prod.fst).Nodup)
    (hperm : (E.map (fun p => (p.1, g p.2))).Perm (F.map (fun p => (p.1, g p.2)))) :
    (sortByKey E).map (fun p => (p.1, g p.2)) = (sortByKey F).map (fun p => (p.1, g p.2)) := by
  letI : IsAntisymm (String × String)
      (fun p q => (strLe p.1 q.1 = true) ∧ ¬ p.1 = q.1) :=
    ⟨fun p q h1 h2 => absurd (strLe_antisymm h1.1 h2.1) h1.2⟩
  have keysE : (E.map (fun p => (p.1, g p.2))).map Prod.fst = E.map Prod.fst := by
    simp [List.map_map]
  have keysF : (F.map (fun p => (p.1, g p.2))).map Prod.fst = F.map Prod.fst := by
    simp [List.map_map]
  have hndF : (F.map Prod.fst).Nodup := by
    have := hperm.map Prod.fst
    rw [keysE, keysF] at this
    exact this.nodup hnd
  have sorted : ∀ (L : List (String × JVal)), (L.map Prod.fst).Nodup →
      List.Pairwise (fun (p q : String × String) => (strLe p.1 q.1 = true) ∧ ¬ p.1 = q.1)
        ((sortByKey L).map (fun p => (p.1, g p.2))) := by
    intro L hndL
    have hle : List.Pairwise (fun (p q : String × String) => strLe p.1 q.1 = true)
        ((sortByKey L).map (fun p => (p.1, g p.2))) := by
      letI : IsTotal (String × JVal) (fun p q => strLe p.1 q.1 = true) :=
        ⟨fun a b => strLe_total _ _⟩
      letI : IsTrans (String × JVal) (fun p q => strLe p.1 q.1 = true) :=
        ⟨fun _ _ _ => strLe_trans⟩
      have := List.sorted_insertionSort (fun (p q : String × JVal) => strLe p.1 q.1 = true) L
      exact List.pairwise_map.mpr this
    have hne : List.Pairwise (fun (p q : String × String) => ¬ p.1 = q.1)
        ((sortByKey L).map (fun p => (p.1, g p.2))) := by
      have hndS : ((sortByKey L).map Prod.fst).Nodup := by
        have hp := (List.perm_insertionSort (fun (p q : String × JVal) => strLe p.1 q.1 = true)
          L).map Prod.fst
        exact hp.symm.nodup hndL
      have : List.Pairwise (fun (p q : String × JVal) => ¬ p.1 = q.1) (sortByKey L) :=
        List.pairwise_map.mp hndS
      exact List.pairwise_map.mpr this
    exact hle.and hne
  have hp : ((sortByKey E).map (fun p => (p.1, g p.2))).Perm
      ((sortByKey F).map (fun p => (p.1, g p.2))) := by
    have h1 := (List.perm_insertionSort (fun (p q : String × JVal) => strLe p.1 q.1 = true)
      E).map (fun p => (p.1, g p.2))
    have h2 := (List.perm_insertionSort (fun (p q : String × JVal) => strLe p.1 q.1 = true)
      F).map (fun p => (p.1, g p.2))
    exact (h1.trans hperm).trans h2.symm
  exact List.eq_of_perm_of_sorted hp (sorted E hnd) (sorted F hndF)

theorem canonicalStringify_arr (l : List JVal) : canonicalStringify (.arr l) =
    "[" ++ String.intercalate "," ((sortBySer (l.map canonEnc)).map jsonStringify) ++ "]" := by
  simp [canonicalStringify, canonEnc, canonEncList_eq, jsonStringify, stringifyElems_eq]

theorem canonicalStringify_obj (l : List (String × JVal)) : canonicalStringify (.obj l) =
    "\x7b" ++ String.intercalate ","
      ((sortByKey (l.map (fun p => (p.1, canonEnc p.2)))).map
        (fun p => quoteString p.1 ++ ":" ++ jsonStringify p.2)) ++ "\x7d" := by
  simp [canonicalStringify, canonEnc, canonEncFields_eq, jsonStringify, stringifyFields_eq]

theorem stableStringify_arr (l : List JVal) : stableStringify (.arr l) =
    "[" ++ String.intercalate "," ((l.map stableEnc).map jsonStringify) ++ "]" := by
  simp [stableStringify, stableEnc, stableEncList_eq, jsonStringify, stringifyElems_eq]

theorem stableStringify_obj (l : List (String × JVal)) : stableStringify (.obj l) =
    "\x7b" ++ String.intercalate ","
      ((sortByKey (l.map (fun p => (p.1, stableEnc p.2)))).map
        (fun p => quoteString p.1 ++ ":" ++ jsonStringify p.2)) ++ "\x7d" := by
  simp [stableStringify, stableEnc, stableEncFields_eq, jsonStringify, stringifyFields_eq]

theorem sizeOf_lt_of_mem_elems {v : JVal} {l : List JVal} (h : v ∈ l) :
    sizeOf v < sizeOf (JVal.arr l) := by
  have := List.sizeOf_lt_of_mem h
  simp only [JVal.arr.sizeOf_spec]
  omega

theorem sizeOf_lt_of_mem_fields {p : String × JVal} {l : List (String × JVal)} (h : p ∈ l) :
    sizeOf p.2 < sizeOf (JVal.obj l) := by
  have h1 := List.sizeOf_lt_of_mem h
  have h2 : sizeOf p.2 < sizeOf p := by
    cases p with
    | mk k v => simp only [Prod.mk.sizeOf_spec]; omega
  simp only [JVal.obj.sizeOf_spec]
  omega

theorem wfJList_mem {l : List JVal} (h : wfJList l = true) : ∀ v ∈ l, wfJ v = true := by
  induction l with
  | nil => intro v hv; cases hv
  | cons x t ih =>
    simp only [wfJList, Bool.and_eq_true] at h
    intro v hv
    rcases List.mem_cons.mp hv with h1 | h1
    · subst h1; exact h.1
    · exact ih h.2 v h1

theorem wfJFields_mem {l : List (String × JVal)} (h : wfJFields l = true) :
    ∀ p ∈ l, wfJ p.2 = true := by
  induction l with
  | nil => intro p hp; cases hp
  | cons x t ih =>
    cases x with
    | mk k v =>
      simp only [wfJFields, Bool.and_eq_true] at h
      intro p hp
      rcases List.mem_cons.mp hp with h1 | h1
      · subst h1; exact h.1
      · exact ih h.2 p h1

theorem jequivList_map (f : JVal → String) {ap : Bool} {l m : List JVal}
    (hl : JEquivList ap l m)
    (IH : ∀ v ∈ l, ∀ w, JEquiv ap v w → wfJ w = true → f v = f w)
    (hwm : wfJList m = true) : l.map f = m.map f := by
  induction l generalizing m with
  | nil => cases hl; rfl
  | cons v t ih =>
    cases hl with
    | cons hv ht =>
      rename_i w' m'
      simp only [wfJList, Bool.and_eq_true] at hwm
      simp only [List.map_cons, List.cons.injEq]
      exact ⟨IH v (List.mem_cons_self _ _) w' hv hwm.1,
        ih ht (fun u hu => IH u (List.mem_cons_of_mem _ hu)) hwm.2⟩

theorem jequivFields_map (f : JVal → String) {ap : Bool} {l m : List (String × JVal)}
    (hf : JEquivFields ap l m)
    (IH : ∀ p ∈ l, ∀ w, JEquiv ap p.2 w → wfJ w = true → f p.2 = f w)
    (hwm : wfJFields m = true) :
    l.map (fun p => (p.1, f p.2)) = m.map (fun p => (p.1, f p.2)) := by
  induction l generalizing m with
  | nil => cases hf; rfl
  | cons p t ih =>
    cases p with
    | mk k v =>
      cases hf with
      | cons _ hv hrest =>
        rename_i w' m'
        simp only [wfJFields, Bool.and_eq_true] at hwm
        simp only [List.map_cons, List.cons.injEq]
        constructor
        · exact congrArg (fun s => (k, s)) (IH (k, v) (List.mem_cons_self _ _) w' hv hwm.1)
        · exact ih hrest (fun u hu => IH u (List.mem_cons_of_mem _ hu)) hwm.2

theorem one_le_sizeOf_jval (v : JVal) : 1 ≤ sizeOf v := by
  cases v <;> simp

theorem map_stringify_canonEnc (l : List JVal) :
    (l.map canonEnc).map jsonStringify = l.map canonicalStringify := by
  simp [List.map_map]
  intro a _
  rfl

theorem map_proj_canonEnc (l : List (String × JVal)) :
    (l.map (fun p => (p.1, canonEnc p.2))).map (fun p => (p.1, jsonStringify p.2)) =
      l.map (fun p => (p.1, canonicalStringify p.2)) := by
  simp [List.map_map]
  intro a b _
  rfl

theorem map_entryStr_proj (L : List (String × JVal)) :
    L.map (fun p => quoteString p.1 ++ ":" ++ jsonStringify p.2) =
      (L.map (fun p => (p.1, jsonStringify p.2))).map (fun q => quoteString q.1 ++ ":" ++ q.2) := by
  simp [List.map_map]

theorem canonicalStringify_equivAux :
    ∀ n : Nat, ∀ v : JVal, sizeOf v ≤ n → ∀ {ap : Bool} {w : JVal}, JEquiv ap v w →
      wfJ v = true → wfJ w = true → canonicalStringify v = canonicalStringify w := by
  intro n
  induction n with
  | zero =>
    intro v hv
    exact absurd (Nat.le_trans (one_le_sizeOf_jval v) hv) (by omega)
  | succ n ih =>
    intro v hv ap w hequiv hwv hww
    cases hequiv with
    | null => rfl
    | bool b => rfl
    | num m => rfl
    | nan => rfl
    | inf b => rfl
    | str s => rfl
    | arr hl =>
      rename_i l m
      rw [canonicalStringify_arr, canonicalStringify_arr]
      simp only [wfJ] at hwv hww
      have hmap : l.map canonicalStringify = m.map canonicalStringify := by
        refine jequivList_map canonicalStringify hl ?_ hww
        intro u hu w' h' hw'
        exact ih u (by
          have := sizeOf_lt_of_mem_elems hu
          omega) h' (wfJList_mem hwv u hu) hw'
      have hperm : ((l.map canonEnc).map jsonStringify).Perm ((m.map canonEnc).map jsonStringify) := by
        rw [map_stringify_canonEnc, map_stringify_canonEnc, hmap]
      exact congrArg (fun xs => "[" ++ String.intercalate "," xs ++ "]")
        (sortBySer_map_stringify hperm)
    | arrPerm hp hl =>
      rename_i l l₂ m
      rw [canonicalStringify_arr, canonicalStringify_arr]
      simp only [wfJ] at hwv hww
      have hmap : l₂.map canonicalStringify = m.map canonicalStringify := by
        refine jequivList_map canonicalStringify hl ?_ hww
        intro u hu w' h' hw'
        have humem : u ∈ l := hp.mem_iff.mpr hu
        exact ih u (by
          have := sizeOf_lt_of_mem_elems humem
          omega) h' (wfJList_mem hwv u humem) hw'
      have hperm : ((l.map canonEnc).map jsonStringify).Perm ((m.map canonEnc).map jsonStringify) := by
        rw [map_stringify_canonEnc, map_stringify_canonEnc, ← hmap]
        exact hp.map canonicalStringify
      exact congrArg (fun xs => "[" ++ String.intercalate "," xs ++ "]")
        (sortBySer_map_stringify hperm)
    | obj hp hf =>
      rename_i l l₂ m
      rw [canonicalStringify_obj, canonicalStringify_obj]
      simp only [wfJ, Bool.and_eq_true] at hwv hww
      have hmap : l₂.map (fun p => (p.1, canonicalStringify p.2)) =
          m.map (fun p => (p.1, canonicalStringify p.2)) := by
        refine jequivFields_map canonicalStringify hf ?_ hww.2
        intro u hu w' h' hw'
        have humem : u ∈ l := hp.mem_iff.mpr hu
        exact ih u.2 (by
          have := sizeOf_lt_of_mem_fields humem
          omega) h' (wfJFields_mem hwv.2 u humem) hw'
      have hperm : ((l.map (fun p => (p.1, canonEnc p.2))).map (fun p => (p.1, jsonStringify p.2))).Perm
          ((m.map (fun p => (p.1, canonEnc p.2))).map (fun p => (p.1, jsonStringify p.2))) := by
        rw [map_proj_canonEnc, map_proj_canonEnc, ← hmap]
        exact hp.map _
      have hnd : ((l.map (fun p => (p.1, canonEnc p.2))).map Prod.fst).Nodup := by
        have : (l.map (fun p => (p.1, canonEnc p.2))).map Prod.fst = l.map Prod.fst := by
          simp [List.map_map]
        rw [this]
        exact wfKeysList_nodup hwv.1
      have := sortByKey_map_proj jsonStringify hnd hperm
      rw [map_entryStr_proj, map_entryStr_proj, this]

/-- Order-insensitive canonicalization is invariant under key reordering at
any level and array reordering at any level. -/
theorem canonicalStringify_of_equiv {ap : Bool} {v w : JVal} (h : JEquiv ap v w)
    (hv : wfJ v = true) (hw : wfJ w = true) : canonicalStringify v = canonicalStringify w :=
  canonicalStringify_equivAux (sizeOf v) v (Nat.le_refl _) h hv hw

theorem map_stringify_stableEnc (l : List JVal) :
    (l.map stableEnc).map jsonStringify = l.map stableStringify := by
  simp [List.map_map]
  intro a _
  rfl

theorem map_proj_stableEnc (l : List (String × JVal)) :
    (l.map (fun p => (p.1, stableEnc p.2))).map (fun p => (p.1, jsonStringify p.2)) =
      l.map (fun p => (p.1, stableStringify p.2)) := by
  simp [List.map_map]
  intro a b _
  rfl

theorem stableStringify_equivAux :
    ∀ n : Nat, ∀ v : JVal, sizeOf v ≤ n → ∀ {w : JVal}, JEquiv false v w →
      wfJ v = true → wfJ w = true → stableStringify v = stableStringify w := by
  intro n
  induction n with
  | zero =>
    intro v hv
    exact absurd (Nat.le_trans (one_le_sizeOf_jval v) hv) (by omega)
  | succ n ih =>
    intro v hv w hequiv hwv hww
    cases hequiv with
    | null => rfl
    | bool b => rfl
    | num m => rfl
    | nan => rfl
    | inf b => rfl
    | str s => rfl
    | arr hl =>
      rename_i l m
      rw [stableStringify_arr, stableStringify_arr]
      simp only [wfJ] at hwv hww
      have hmap : l.map stableStringify = m.map stableStringify := by
        refine jequivList_map stableStringify hl ?_ hww
        intro u hu w' h' hw'
        exact ih u (by
          have := sizeOf_lt_of_mem_elems hu
          omega) h' (wfJList_mem hwv u hu) hw'
      rw [map_stringify_stableEnc, map_stringify_stableEnc, hmap]
    | obj hp hf =>
      rename_i l l₂ m
      rw [stableStringify_obj, stableStringify_obj]
      simp only [wfJ, Bool.and_eq_true] at hwv hww
      have hmap : l₂.map (fun p => (p.1, stableStringify p.2)) =
          m.map (fun p => (p.1, stableStringify p.2)) := by
        refine jequivFields_map stableStringify hf ?_ hww.2
        intro u hu w' h' hw'
        have humem : u ∈ l := hp.mem_iff.mpr hu
        exact ih u.2 (by
          have := sizeOf_lt_of_mem_fields humem
          omega) h' (wfJFields_mem hwv.2 u humem) hw'
      have hperm : ((l.map (fun p => (p.1, stableEnc p.2))).map (fun p => (p.1, jsonStringify p.2))).Perm
          ((m.map (fun p => (p.1, stableEnc p.2))).map (fun p => (p.1, jsonStringify p.2))) := by
        rw [map_proj_stableEnc, map_proj_stableEnc, ← hmap]
        exact hp.map _
      have hnd : ((l.map (fun p => (p.1, stableEnc p.2))).map Prod.fst).Nodup := by
        have : (l.map (fun p => (p.1, stableEnc p.2))).map Prod.fst = l.map Prod.fst := by
          simp [List.map_map]
        rw [this]
        exact wfKeysList_nodup hwv.1
      have := sortByKey_map_proj jsonStringify hnd hperm
      rw [map_entryStr_proj, map_entryStr_proj, this]

/-- The order-preserving encoder is invariant under key reordering at any
nesting level. -/
theorem stableStringify_of_equiv {v w : JVal} (h : JEquiv false v w)
    (hv : wfJ v = true) (hw : wfJ w = true) : stableStringify v = stableStringify w :=
  stableStringify_equivAux (sizeOf v) v (Nat.le_refl _) h hv hw

set_option maxRecDepth 1000000

/-- C3: for every pair of well-formed values equal up to key ordering at any
nesting level, `stableStringify` and `canonicalStringify` both produce
identical strings (in particular on `{a:1,b:2}` vs `{b:2,a:1}`); the
order-insensitive `canonicalStringify` additionally serializes arrays that
are permutations of each other identically (so `[1,2,3]` and `[3,1,2]`
coincide), while the order-preserving `stableStringify` keeps those two
distinct. -/
theorem C3_encoder_order_invariance :
    (∀ v w : JVal, JEquiv false v w → wfJ v = true → wfJ w = true →
      stableStringify v = stableStringify w ∧ canonicalStringify v = canonicalStringify w) ∧
    (∀ (ap : Bool) (v w : JVal), JEquiv ap v w → wfJ v = true → wfJ w = true →
      canonicalStringify v = canonicalStringify w) ∧
    canonicalStringify (.obj [("a", .num 1), ("b", .num 2)]) =
      canonicalStringify (.obj [("b", .num 2), ("a", .num 1)]) ∧
    canonicalStringify (.arr [.num 1, .num 2, .num 3]) =
      canonicalStringify (.arr [.num 3, .num 1, .num 2]) ∧
    stableStringify (.arr [.num 1, .num 2, .num 3]) ≠
      stableStringify (.arr [.num 3, .num 1, .num 2]) := by
  refine ⟨fun v w h hv hw =>
      ⟨stableStringify_of_equiv h hv hw, canonicalStringify_of_equiv h hv hw⟩,
    fun ap v w h hv hw => canonicalStringify_of_equiv h hv hw, ?_, ?_, ?_⟩
  · decide
  · decide
  · decide

/-- Witness for C3: the key-order-invariance conjunct applied to the concrete
pair `{a:1,b:2}` / `{b:2,a:1}`. -/
theorem C3_encoder_order_invariance_witness :
    stableStringify (.obj [("a", .num 1), ("b", .num 2)]) =
      stableStringify (.obj [("b", .num 2), ("a", .num 1)]) :=
  (C3_encoder_order_invariance.1 _ _
    (JEquiv.obj (List.Perm.swap _ _ _).symm
      (JEquivFields.cons "b" (JEquiv.num 2)
        (JEquivFields.cons "a" (JEquiv.num 1) JEquivFields.nil)))
    (by decide) (by decide)).1

/-- The §8 sample pair: two bodies differing only in the top-level arrival
timestamp. -/
def c2BodyA : JVal := .obj [("x", .str "v"), ("timestamp", .num 1700000000000)]

def c2BodyB : JVal := .obj [("x", .str "v"), ("timestamp", .num 1700000000999)]

/-- A pair differing in a non-timestamp field (`a: 1` vs `a: 2`). -/
def c2BodyC : JVal := .obj [("a", .num 1), ("timestamp", .num 1)]

def c2BodyD : JVal := .obj [("a", .num 2), ("timestamp", .num 1)]

/-- A pair differing only in the order of a non-timestamp array field. -/
def c2BodyE : JVal := .obj [("a", .arr [.num 1, .num 2]), ("timestamp", .num 1)]

def c2BodyF : JVal := .obj [("a", .arr [.num 2, .num 1]), ("timestamp", .num 1)]

/-- C2 (amended): the communications fingerprint ignores the top-level
`timestamp` field (any two bodies agreeing outside it collapse to one
fingerprint); the appointments fingerprint hashes the full body including
the timestamp, and distinguishes the §8 sample pair; and a non-timestamp
change that alters the order-insensitive canonical form (here `a:1` vs
`a:2`) changes the communications fingerprint — but a change invisible to
the order-insensitive canonicalization need not (see the counterexample). -/
theorem C2_fingerprint_timestamp_policy :
    (∀ (l l' : List (String × JVal)) (ns : String),
      l.filter (fun p => p.1 != "timestamp") = l'.filter (fun p => p.1 != "timestamp") →
      createDeterministicEventIdComm (.obj l) ns = createDeterministicEventIdComm (.obj l') ns) ∧
    (∀ (body : JVal) (ns : String),
      createDeterministicEventIdAppt body ns =
        md5ToUuid (md5 (ns ++ ":" ++ canonicalStringify body))) ∧
    createDeterministicEventIdComm c2BodyA NAMESPACE =
      createDeterministicEventIdComm c2BodyB NAMESPACE ∧
    createDeterministicEventIdAppt c2BodyA NAMESPACE ≠
      createDeterministicEventIdAppt c2BodyB NAMESPACE ∧
    createDeterministicEventIdComm c2BodyC NAMESPACE ≠
      createDeterministicEventIdComm c2BodyD NAMESPACE := by
  refine ⟨?_, fun body ns => rfl, ?_, ?_, ?_⟩
  · intro l l' ns h
    simp only [createDeterministicEventIdComm, deleteTimestamp, h]
  · decide
  · decide
  · decide

/-- Witness for C2: the timestamp-stripping conjunct applied to the §8
sample pair. -/
theorem C2_fingerprint_timestamp_policy_witness :
    createDeterministicEventIdComm (.obj [("x", .str "v"), ("timestamp", .num 1700000000000)])
        NAMESPACE =
      createDeterministicEventIdComm (.obj [("x", .str "v"), ("timestamp", .num 1700000000999)])
        NAMESPACE :=
  C2_fingerprint_timestamp_policy.1 _ _ NAMESPACE rfl

/-- Counterexample to C2 as stated: `c2BodyE` and `c2BodyF` differ in the
non-timestamp field `a` (their order-preserving serializations differ), yet
the timestamp-excluding fingerprint is the same, because the fingerprint
encoder's canonicalization is deliberately array-order-insensitive. -/
theorem C2_fingerprint_timestamp_policy_counterexample :
    createDeterministicEventIdComm c2BodyE NAMESPACE =
      createDeterministicEventIdComm c2BodyF NAMESPACE ∧
    stableStringify (fieldOr c2BodyE "a") ≠ stableStringify (fieldOr c2BodyF "a") := by
  constructor
  · decide
  · decide

/-- C7 (the code side of the divergence): the "couldn't leave a voicemail"
phrasing is NOT tested before the generic voicemail substrings — priority 1
of `detectCallDisposition` already matches the substrings `vm` /
`voicemail`, so both of the claim's inputs classify as `voicemail` and the
priority-2 no-answer patterns that mention them are unreachable. -/
theorem C7_call_disposition_ordering :
    detectCallDisposition (.str ("couldn" ++ apos ++ "t leave a voicemail")) = .ok "voicemail" ∧
    detectCallDisposition (.str "no vm") = .ok "voicemail" ∧
    strIncludes (jsLower (jsTrim ("couldn" ++ apos ++ "t leave a voicemail"))) "voicemail" = true ∧
    strIncludes (jsLower (jsTrim "no vm")) "vm" = true := by
  exact ⟨rfl, rfl, by decide, by decide⟩

/-- The concrete appointment of C4: the confirmation flag is `true` and the
payload also satisfies every part of the `set` predicate (status `Current`,
a quarter-hour `date_time`, and root `dealer_parties`). -/
def c4Appt : JVal := .obj [
  ("appointment_id", .str "A1"),
  ("appointment_status", .obj [("status", .str "Current")]),
  ("confirmed_status", .obj [("confirmed", .bool true)]),
  ("date_time", .str "2025-01-01T22:30:00Z")]

def c4Sales : JVal := .obj [
  ("appointment", c4Appt),
  ("dealer_parties", .obj [("employee_id", .str "E1")])]

/-- C4: whenever `confirmed_status.confirmed === true` (and the payload
passes the cascade's structural guard), `detectEventType` returns
`confirmed` — in particular on a payload that also satisfies the whole
`set` predicate. -/
theorem C4_confirmed_overrides_set :
    (∀ appointment salesAppointment : JVal,
      truthy appointment = true →
      truthy (fieldOr appointment "appointment_status") = true →
      apptConfirmedPred appointment = true →
      detectEventType appointment salesAppointment = .ok "confirmed") ∧
    apptSetPred c4Appt c4Sales = true ∧
    detectEventType c4Appt c4Sales = .ok "confirmed" := by
  refine ⟨?_, by decide, rfl⟩
  intro appointment salesAppointment h1 h2 h3
  simp [detectEventType, h1, h2, h3]

/-- Witness for C4: the universal conjunct applied to the concrete
confirmed-and-set payload. -/
theorem C4_confirmed_overrides_set_witness :
    detectEventType c4Appt c4Sales = .ok "confirmed" :=
  C4_confirmed_overrides_set.1 c4Appt c4Sales (by decide) (by decide) (by decide)

theorem strEq_eq {v : JVal} {s : String} (h : strEq v s = true) : v = .str s := by
  cases v <;> simp [strEq] at h ⊢
  exact h

/-- The concrete quarter-hour payloads of C5 (status `Current`, no
confirmation flag, no root `dealer_parties`). -/
def c5Appt (dt : String) : JVal := .obj [
  ("appointment_id", .str "A1"),
  ("appointment_status", .obj [("status", .str "Current")]),
  ("date_time", .str dt)]

def c5Sales (dt : String) : JVal := .obj [("appointment", c5Appt dt)]

/-- C5: with status `Current`, a present `date_time` parsing to minute `mi`,
no confirmation flag and no root `dealer_parties`, `detectEventType`
returns `set` exactly when `mi` is a multiple of 15, and otherwise falls
through to the status map, which sends `Current` to `current`; concretely,
minute 30 classifies as `set` and minute 31 as `current`. -/
theorem C5_quarter_hour_heuristic :
    (∀ (appointment salesAppointment : JVal) (s : String) (mi : Nat),
      truthy appointment = true →
      truthy (fieldOr appointment "appointment_status") = true →
      strEq (fieldOr (fieldOr appointment "appointment_status") "status") "Current" = true →
      getField appointment "date_time" = some (.str s) →
      getOrNull (.str s) = .str s →
      hasValue (.str s) = true →
      isoMinutes s = some mi →
      apptConfirmedPred appointment = false →
      (truthy salesAppointment && hasValue (fieldOr salesAppointment "dealer_parties")) = false →
      ((mi % 15 = 0 → detectEventType appointment salesAppointment = .ok "set") ∧
       (mi % 15 ≠ 0 → detectEventType appointment salesAppointment = .ok "current"))) ∧
    detectEventType (c5Appt "2025-01-01T22:30:00Z") (c5Sales "2025-01-01T22:30:00Z") = .ok "set" ∧
    detectEventType (c5Appt "2025-01-01T22:31:00Z") (c5Sales "2025-01-01T22:31:00Z") =
      .ok "current" := by
  refine ⟨?_, rfl, rfl⟩
  intro appointment salesAppointment s mi h1 h2 hst hdt hg hh hiso hconf hdp
  have hsne : s ≠ "" := by
    intro he
    subst he
    simp [isoMinutes] at hiso
  have htr : truthy (JVal.str s) = true := by simp [truthy, hsne]
  have hdtv : getOrNullOpt (getField appointment "date_time") = .str s := by
    rw [hdt]
    exact hg
  have hb : isOn15MinuteBoundary (JVal.str s) = (mi % 15 == 0) := by
    simp [isOn15MinuteBoundary, htr, hiso]
  have hsp : apptSetPred appointment salesAppointment = (mi % 15 == 0) := by
    simp [apptSetPred, hdtv, hst, hh, hdp, hb]
  have hstatus : fieldOr (fieldOr appointment "appointment_status") "status" = .str "Current" :=
    strEq_eq hst
  constructor
  · intro hm
    have hspt : apptSetPred appointment salesAppointment = true := by
      rw [hsp]
      simp [hm]
    simp [detectEventType, h1, h2, hconf, hspt]
  · intro hm
    have hspf : apptSetPred appointment salesAppointment = false := by
      rw [hsp]
      simp [hm]
    have hres : apptReschedPred appointment = false := by
      simp [apptReschedPred, hstatus, strEq]
    simp [detectEventType, h1, h2, hconf, hspf, hres, hstatus, statusToEventType,
      statusOwnEventType, jsDisplay, strEq]

/-- Witness for C5: the universal conjunct applied to the concrete
minute-30 payload. -/
theorem C5_quarter_hour_heuristic_witness :
    detectEventType (c5Appt "2025-01-01T22:30:00Z") (c5Sales "2025-01-01T22:30:00Z") = .ok "set" :=
  (C5_quarter_hour_heuristic.1 (c5Appt "2025-01-01T22:30:00Z") (c5Sales "2025-01-01T22:30:00Z")
    "2025-01-01T22:30:00Z" 30 (by decide) (by decide) (by decide) rfl rfl
    (by decide) (by decide) (by decide) (by decide)).1 (by decide)

theorem isPrefixOf_append {α} [BEq α] :
    ∀ (p l r : List α), p.isPrefixOf l = true → p.isPrefixOf (l ++ r) = true := by
  intro p
  induction p with
  | nil => intro l r _; simp
  | cons a t ih =>
    intro l r h
    cases l with
    | nil => simp [List.isPrefixOf] at h
    | cons b bl =>
      simp only [List.isPrefixOf, List.cons_append, Bool.and_eq_true] at h ⊢
      exact ⟨h.1, ih bl r h.2⟩

theorem errorStartsInvalid_unsupported (status : JVal) :
    errorStartsInvalid
      ("Invalid payload: unsupported appointment status \"" ++ jsDisplay status ++ "\"") = true := by
  unfold errorStartsInvalid
  have h : ("Invalid payload: unsupported appointment status \"" ++ jsDisplay status ++ "\"").toList =
      "Invalid payload: unsupported appointment status \"".toList ++
        ((jsDisplay status).toList ++ "\"".toList) := by
    show (("Invalid payload: unsupported appointment status \"".toList ++
      (jsDisplay status).toList) ++ "\"".toList) = _
    rw [List.append_assoc]
  rw [h]
  apply isPrefixOf_append
  decide

/-- The concrete rejection payload of C6: a status outside the closed set. -/
def c6Appt : JVal := .obj [
  ("appointment_id", .str "A1"),
  ("appointment_status", .obj [("status", .str "Pending")])]

def c6Sales : JVal := .obj [("appointment", c6Appt)]

def c6Req : Request := {
  body := some (.obj [("sales_appointment", c6Sales), ("customer_id", .str "C1"),
    ("dealer_id", .str "D1"), ("timestamp", .num 5)]),
  headers := some [] }

/-- Every inherited `Object.prototype` member fails the handler's
`assertEventType` guard: none of them normalizes to a valid event type. -/
theorem assertEventType_protoMember {k m : String}
    (h : objectProtoMember k = some m) : assertEventType m = none := by
  unfold objectProtoMember at h
  split at h <;>
    first
      | exact Option.noConfusion h
      | (injection h with h; subst h; decide)

/-- The coerced string of the inherited `toString` member. -/
def c6ProtoMem : String := "function toString() \x7b [native code] \x7d"

/-- The status `"toString"` — also outside the closed status set, but naming
an inherited `Object.prototype` member. -/
def c6ProtoAppt : JVal := .obj [
  ("appointment_id", .num 5),
  ("appointment_status", .obj [("status", .str "toString")])]

def c6cxReq : Request := {
  body := some (.obj [("sales_appointment", .obj [("appointment", c6ProtoAppt)]),
    ("customer_id", .num 3), ("dealer_id", .num 7), ("timestamp", .num 5)]),
  headers := some [("idempotency-key", .str "k")] }

/-- C6 (amended): a payload matching none of the confirmed / set /
rescheduled predicates whose status's coerced property key hits neither an
own key of the status map nor an inherited `Object.prototype` member makes
`detectEventType` throw an `Invalid payload` error that the handler
rethrows as the Rejected outcome.  The closed set is not airtight, though:
a status naming an inherited member makes the property lookup return that
truthy member, `detectEventType` returns it as the event type, and the
member then fails the handler's `assertEventType` guard — whose
`Invalid event_type` error degrades instead of rejecting. -/
theorem C6_hard_rejection :
    (∀ appointment salesAppointment : JVal,
      truthy appointment = true →
      truthy (fieldOr appointment "appointment_status") = true →
      apptConfirmedPred appointment = false →
      apptSetPred appointment salesAppointment = false →
      apptReschedPred appointment = false →
      statusToEventType (fieldOr (fieldOr appointment "appointment_status") "status") = none →
      detectEventType appointment salesAppointment =
        .error ("Invalid payload: unsupported appointment status \"" ++
          jsDisplay (fieldOr (fieldOr appointment "appointment_status") "status") ++ "\"") ∧
      errorStartsInvalid ("Invalid payload: unsupported appointment status \"" ++
        jsDisplay (fieldOr (fieldOr appointment "appointment_status") "status") ++ "\"") = true) ∧
    (∀ (appointment salesAppointment : JVal) (mem : String),
      truthy appointment = true →
      truthy (fieldOr appointment "appointment_status") = true →
      apptConfirmedPred appointment = false →
      apptSetPred appointment salesAppointment = false →
      apptReschedPred appointment = false →
      statusOwnEventType
        (jsDisplay (fieldOr (fieldOr appointment "appointment_status") "status")) = none →
      objectProtoMember
        (jsDisplay (fieldOr (fieldOr appointment "appointment_status") "status")) = some mem →
      detectEventType appointment salesAppointment = .ok mem ∧ assertEventType mem = none) ∧
    apptHandler c6Req 0 "t" =
      .rejected "Invalid payload: unsupported appointment status \"Pending\"" := by
  refine ⟨?_, ?_, rfl⟩
  · intro a sa h1 h2 h3 h4 h5 h6
    refine ⟨?_, errorStartsInvalid_unsupported _⟩
    simp [detectEventType, h1, h2, h3, h4, h5, h6]
  · intro a sa mem h1 h2 h3 h4 h5 h6 h7
    refine ⟨?_, assertEventType_protoMember h7⟩
    simp [detectEventType, statusToEventType, h1, h2, h3, h4, h5, h6, h7]

/-- Counterexample to C6 as stated: the status `"toString"` lies outside the
closed status set, yet `detectEventType` does not throw — the property
lookup finds the inherited `Object.prototype.toString` member and returns
it as the event type — and the handler, whose `assertEventType` guard then
throws an `Invalid event_type` message not starting with `Invalid payload`,
produces the Degraded envelope rather than the Rejected outcome. -/
theorem C6_hard_rejection_counterexample :
    statusOwnEventType "toString" = none ∧
    detectEventType c6ProtoAppt (.obj [("appointment", c6ProtoAppt)]) = .ok c6ProtoMem ∧
    apptValidate c6cxReq 0 = .error ("Invalid event_type: \"" ++ c6ProtoMem ++ "\"") ∧
    errorStartsInvalid ("Invalid event_type: \"" ++ c6ProtoMem ++ "\"") = false ∧
    apptHandler c6cxReq 0 "t" =
      .degraded (apptDegraded c6cxReq 0 "t" ("Invalid event_type: \"" ++ c6ProtoMem ++ "\"")) :=
  ⟨rfl, rfl, rfl, by decide, rfl⟩

/-- Witness for C6: the rejection conjunct applied to the status `"Pending"`
and the prototype conjunct applied to the status `"toString"`. -/
theorem C6_hard_rejection_witness :
    detectEventType c6Appt c6Sales =
      .error ("Invalid payload: unsupported appointment status \"" ++
        jsDisplay (fieldOr (fieldOr c6Appt "appointment_status") "status") ++ "\"") ∧
    detectEventType c6ProtoAppt c6Sales = .ok c6ProtoMem ∧ assertEventType c6ProtoMem = none :=
  ⟨(C6_hard_rejection.1 c6Appt c6Sales (by decide) (by decide) (by decide) (by decide)
      (by decide) rfl).1,
   (C6_hard_rejection.2.1 c6ProtoAppt c6Sales c6ProtoMem (by decide) (by decide) (by decide)
      (by decide) (by decide) rfl rfl).1,
   (C6_hard_rejection.2.1 c6ProtoAppt c6Sales c6ProtoMem (by decide) (by decide) (by decide)
      (by decide) (by decide) rfl rfl).2⟩

theorem isArrayV_eq_false_of_not_typeofObject {v : JVal} (h : typeofObject v = false) :
    isArrayV v = false := by
  cases v <;> simp_all [typeofObject, isArrayV]

/-- Counterexample to C8 as stated: a non-empty (hence `hasValue`-passing)
array-valued field receives NO entry in either shadow map — the recursive
provenance recorder's two branches both exclude arrays — rather than the
single entry the claim asserts. -/
theorem C8_counterexample :
    buildNestedMetadata (.obj [("xs", .arr [.num 1]), ("s", .str "v")]) (.num 7) (.str "E") =
      some (.obj [("s", .num 7)], .obj [("s", .str "E")]) ∧
    (bnmEntries [("xs", .arr [.num 1]), ("s", .str "v")] (.num 7) (.str "E")).1.lookup "xs" =
      none ∧
    hasValue (.arr [.num 1]) = true := by
  exact ⟨rfl, rfl, rfl⟩

/-- C8 (amended): in `buildNestedMetadata` an array-valued field is not
attributed at all — every key of the timestamp map comes from a non-array
field passing `hasValue` — the attribution map carries exactly the same
keys, and a nested object field yields nested sub-maps at the same key
rather than flattened keys. -/
theorem C8_array_attribution :
    (∀ (l : List (String × JVal)) (ts eid : JVal) (k : String),
      k ∈ ((bnmEntries l ts eid).1.map Prod.fst) →
      ∃ v, (k, v) ∈ l ∧ isArrayV v = false ∧ hasValue v = true) ∧
    (∀ (l : List (String × JVal)) (ts eid : JVal),
      (bnmEntries l ts eid).1.map Prod.fst = (bnmEntries l ts eid).2.map Prod.fst) ∧
    buildNestedMetadata (.obj [("a", .obj [("b", .num 5)])]) (.num 7) (.str "E") =
      some (.obj [("a", .obj [("b", .num 7)])], .obj [("a", .obj [("b", .str "E")])]) := by
  refine ⟨?_, ?_, rfl⟩
  · intro l
    induction l with
    | nil =>
      intro ts eid k h
      simp [bnmEntries] at h
    | cons p rest ih =>
      intro ts eid k h
      cases p with
      | mk k' value =>
        simp only [bnmEntries] at h
        split at h
        · next hcond =>
          simp only [List.map_cons, List.mem_cons] at h
          rcases h with h | h
          · subst h
            refine ⟨value, List.mem_cons_self _ _, ?_, ?_⟩
            · simp only [Bool.and_eq_true, Bool.not_eq_true'] at hcond
              exact isArrayV_eq_false_of_not_typeofObject hcond.2
            · simp only [Bool.and_eq_true] at hcond
              exact hcond.1
          · rcases ih ts eid k h with ⟨v, hv, hv2, hv3⟩
            exact ⟨v, List.mem_cons_of_mem _ hv, hv2, hv3⟩
        · split at h
          · next hcond2 =>
            split at h
            · next nt na heq =>
              split at h
              · next nl hnt =>
                split at h
                · next hne =>
                  simp only [List.map_cons, List.mem_cons] at h
                  rcases h with h | h
                  · subst h
                    refine ⟨value, List.mem_cons_self _ _, ?_, ?_⟩
                    · simp only [Bool.and_eq_true, Bool.not_eq_true'] at hcond2
                      exact hcond2.1.2
                    · simp only [Bool.and_eq_true] at hcond2
                      exact hcond2.2
                  · rcases ih ts eid k h with ⟨v, hv, hv2, hv3⟩
                    exact ⟨v, List.mem_cons_of_mem _ hv, hv2, hv3⟩
                · rcases ih ts eid k h with ⟨v, hv, hv2, hv3⟩
                  exact ⟨v, List.mem_cons_of_mem _ hv, hv2, hv3⟩
              · rcases ih ts eid k h with ⟨v, hv, hv2, hv3⟩
                exact ⟨v, List.mem_cons_of_mem _ hv, hv2, hv3⟩
            · rcases ih ts eid k h with ⟨v, hv, hv2, hv3⟩
              exact ⟨v, List.mem_cons_of_mem _ hv, hv2, hv3⟩
          · rcases ih ts eid k h with ⟨v, hv, hv2, hv3⟩
            exact ⟨v, List.mem_cons_of_mem _ hv, hv2, hv3⟩
  · intro l
    induction l with
    | nil => intro ts eid; rfl
    | cons p rest ih =>
      intro ts eid
      cases p with
      | mk k' value =>
        simp only [bnmEntries]
        split
        · simp [ih ts eid]
        · split
          · split
            · split
              · split
                · simp [ih ts eid]
                · exact ih ts eid
              · exact ih ts eid
            · exact ih ts eid
          · exact ih ts eid

/-- Witness for C8: the key-origin conjunct applied to the concrete field
list whose only stamped key is the scalar `"s"`. -/
theorem C8_array_attribution_witness :
    ∃ v, ("s", v) ∈ [("xs", JVal.arr [.num 1]), ("s", JVal.str "v")] ∧
      isArrayV v = false ∧ hasValue v = true :=
  C8_array_attribution.1 [("xs", JVal.arr [.num 1]), ("s", JVal.str "v")] (.num 7) (.str "E")
    "s" (by decide)

/-- Decidable statement of the C1 invariant over a finished aggregate: both
shadow maps are present; every non-excluded field whose value passes
`hasValue` has an entry in both maps; and every entry of either map comes
from a non-excluded aggregate field passing `hasValue`. -/
def provenanceOk (agg : List (String × JVal)) : Bool :=
  match agg.lookup "field_last_received_at", agg.lookup "field_last_received_by" with
  | some (.obj ma), some (.obj mb) =>
    (agg.all (fun p => excludedKey p.1 || !hasValue p.2 ||
      ((ma.map Prod.fst).contains p.1 && (mb.map Prod.fst).contains p.1))) &&
    (ma.all (fun q => agg.any (fun p => p.1 == q.1 && (!excludedKey p.1) && hasValue p.2))) &&
    (mb.all (fun q => agg.any (fun p => p.1 == q.1 && (!excludedKey p.1) && hasValue p.2)))
  | _, _ => false

/-- The C1 invariant weakened at one key: shadow-map entries at `ex` are not
required to come from a `hasValue`-passing field. -/
def provenanceOkExcept (ex : String) (agg : List (String × JVal)) : Bool :=
  match agg.lookup "field_last_received_at", agg.lookup "field_last_received_by" with
  | some (.obj ma), some (.obj mb) =>
    (agg.all (fun p => excludedKey p.1 || !hasValue p.2 ||
      ((ma.map Prod.fst).contains p.1 && (mb.map Prod.fst).contains p.1))) &&
    (ma.all (fun q => q.1 == ex ||
      agg.any (fun p => p.1 == q.1 && (!excludedKey p.1) && hasValue p.2))) &&
    (mb.all (fun q => q.1 == ex ||
      agg.any (fun p => p.1 == q.1 && (!excludedKey p.1) && hasValue p.2)))
  | _, _ => false

/-- The provenance loop restricted to one of its two parallel accumulators. -/
def stampOne (seed : List (String × JVal)) (entries : List (String × JVal)) (val : JVal) :
    List (String × JVal) :=
  entries.foldl (fun acc p =>
    if excludedKey p.1 then acc
    else if hasValue p.2 then objSet acc p.1 val else acc) seed

theorem stampFields_eq_stampOne (ts eid : JVal) :
    ∀ (entries sa sb : List (String × JVal)),
      stampFields sa sb entries ts eid = (stampOne sa entries ts, stampOne sb entries eid) := by
  intro entries
  induction entries with
  | nil => intro sa sb; rfl
  | cons p rest ih =>
    intro sa sb
    by_cases hex : excludedKey p.1 = true
    · have h1 : stampFields sa sb (p :: rest) ts eid = stampFields sa sb rest ts eid := by
        simp [stampFields, List.foldl_cons, hex]
      have h2 : stampOne sa (p :: rest) ts = stampOne sa rest ts := by
        simp [stampOne, List.foldl_cons, hex]
      have h3 : stampOne sb (p :: rest) eid = stampOne sb rest eid := by
        simp [stampOne, List.foldl_cons, hex]
      rw [h1, h2, h3]
      exact ih sa sb
    · by_cases hhv : hasValue p.2 = true
      · have h1 : stampFields sa sb (p :: rest) ts eid =
            stampFields (objSet sa p.1 ts) (objSet sb p.1 eid) rest ts eid := by
          simp [stampFields, List.foldl_cons, hex, hhv]
        have h2 : stampOne sa (p :: rest) ts = stampOne (objSet sa p.1 ts) rest ts := by
          simp [stampOne, List.foldl_cons, hex, hhv]
        have h3 : stampOne sb (p :: rest) eid = stampOne (objSet sb p.1 eid) rest eid := by
          simp [stampOne, List.foldl_cons, hex, hhv]
        rw [h1, h2, h3]
        exact ih _ _
      · have h1 : stampFields sa sb (p :: rest) ts eid = stampFields sa sb rest ts eid := by
          simp [stampFields, List.foldl_cons, hex, hhv]
        have h2 : stampOne sa (p :: rest) ts = stampOne sa rest ts := by
          simp [stampOne, List.foldl_cons, hex, hhv]
        have h3 : stampOne sb (p :: rest) eid = stampOne sb rest eid := by
          simp [stampOne, List.foldl_cons, hex, hhv]
        rw [h1, h2, h3]
        exact ih sa sb

theorem objSet_keys {l : List (String × JVal)} {k : String} {v : JVal} {m : String} :
    m ∈ (objSet l k v).map Prod.fst ↔ m ∈ l.map Prod.fst ∨ m = k := by
  unfold objSet
  split
  · next hany =>
    have hkeys : (l.map (fun p => if p.1 == k then (p.1, v) else p)).map Prod.fst =
        l.map Prod.fst := by
      rw [List.map_map]
      apply List.map_congr_left
      intro p _
      by_cases hp : p.1 = k <;> simp [hp]
    rw [hkeys]
    constructor
    · exact Or.inl
    · rintro (h | h)
      · exact h
      · subst h
        rcases List.any_eq_true.mp hany with ⟨p, hp, hpk⟩
        exact List.mem_map.mpr ⟨p, hp, eq_of_beq hpk⟩
  · simp [List.map_append]

theorem stampOne_keys (val : JVal) :
    ∀ (entries seed : List (String × JVal)) (m : String),
      m ∈ (stampOne seed entries val).map Prod.fst ↔
        m ∈ seed.map Prod.fst ∨
          ∃ v, (m, v) ∈ entries ∧ excludedKey m = false ∧ hasValue v = true := by
  intro entries
  induction entries with
  | nil =>
    intro seed m
    simp [stampOne]
  | cons p rest ih =>
    intro seed m
    cases p with
    | mk k v =>
      by_cases hex : excludedKey k = true
      · have h1 : stampOne seed ((k, v) :: rest) val = stampOne seed rest val := by
          simp [stampOne, List.foldl_cons, hex]
        rw [h1, ih seed m]
        apply or_congr_right
        constructor
        · rintro ⟨v', hmem, hx, hv'⟩
          exact ⟨v', List.mem_cons_of_mem _ hmem, hx, hv'⟩
        · rintro ⟨v', hmem, hx, hv'⟩
          rcases List.mem_cons.mp hmem with he | he
          · cases he
            rw [hex] at hx
            simp at hx
          · exact ⟨v', he, hx, hv'⟩
      · by_cases hhv : hasValue v = true
        · have h1 : stampOne seed ((k, v) :: rest) val = stampOne (objSet seed k val) rest val := by
            simp [stampOne, List.foldl_cons, hex, hhv]
          rw [h1, ih _ m]
          constructor
          · rintro (h | h)
            · rcases objSet_keys.mp h with h2 | h2
              · exact Or.inl h2
              · subst h2
                exact Or.inr ⟨v, List.mem_cons_self _ _, by simpa using hex, hhv⟩
            · rcases h with ⟨v', hmem, hx, hv'⟩
              exact Or.inr ⟨v', List.mem_cons_of_mem _ hmem, hx, hv'⟩
          · rintro (h | h)
            · exact Or.inl (objSet_keys.mpr (Or.inl h))
            · rcases h with ⟨v', hmem, hx, hv'⟩
              rcases List.mem_cons.mp hmem with he | he
              · cases he
                exact Or.inl (objSet_keys.mpr (Or.inr rfl))
              · exact Or.inr ⟨v', he, hx, hv'⟩
        · have h1 : stampOne seed ((k, v) :: rest) val = stampOne seed rest val := by
            simp [stampOne, List.foldl_cons, hex, hhv]
          rw [h1, ih seed m]
          apply or_congr_right
          constructor
          · rintro ⟨v', hmem, hx, hv'⟩
            exact ⟨v', List.mem_cons_of_mem _ hmem, hx, hv'⟩
          · rintro ⟨v', hmem, hx, hv'⟩
            rcases List.mem_cons.mp hmem with he | he
            · cases he
              exact absurd hv' hhv
            · exact ⟨v', he, hx, hv'⟩

theorem lookup_append_none {l r : List (String × JVal)} {k : String}
    (h : l.lookup k = none) : (l ++ r).lookup k = r.lookup k := by
  induction l with
  | nil => rfl
  | cons p t ih =>
    cases p with
    | mk k' v =>
      simp only [List.lookup] at h ⊢
      by_cases hk : k == k'
      · rw [hk] at h
        simp at h
      · simp only [Bool.not_eq_true] at hk
        rw [hk] at h ⊢
        exact ih h

theorem lookup_eq_none_of_keys {l : List (String × JVal)} {k : String}
    (h : ∀ p ∈ l, (k == p.1) = false) : l.lookup k = none := by
  induction l with
  | nil => rfl
  | cons p t ih =>
    simp only [List.lookup]
    rw [h p (List.mem_cons_self _ _)]
    exact ih (fun q hq => h q (List.mem_cons_of_mem _ hq))

theorem lookup_append_some {l r : List (String × JVal)} {k : String} {v : JVal}
    (h : l.lookup k = some v) : (l ++ r).lookup k = some v := by
  induction l with
  | nil => simp [List.lookup] at h
  | cons p t ih =>
    cases p with
    | mk k' w =>
      simp only [List.lookup, List.cons_append] at h ⊢
      by_cases hk : (k == k') = true
      · rw [hk] at h ⊢
        exact h
      · simp only [Bool.not_eq_true] at hk
        rw [hk] at h ⊢
        exact ih h

theorem mem_addIfHasValue {l : List (String × JVal)} {k : String} {v : JVal}
    {p : String × JVal} :
    p ∈ addIfHasValue l k v ↔ p ∈ l ∨ (hasValue v = true ∧ p = (k, v)) := by
  unfold addIfHasValue
  split
  · next h => simp [List.mem_append, h]
  · next h =>
    simp only [Bool.not_eq_true] at h
    simp [h]

/-- Generic invariant construction: an aggregate made of `entries` (whose
keys avoid the two shadow-map names) followed by the two shadow maps
satisfies `provenanceOk` when the maps' keys are exactly the stamped
non-excluded `hasValue` fields. -/
theorem provenanceOk_build {entries ma mb : List (String × JVal)}
    (hka : ∀ p ∈ entries, ("field_last_received_at" == p.1) = false)
    (hkb : ∀ p ∈ entries, ("field_last_received_by" == p.1) = false)
    (hdir1 : ∀ p ∈ entries, excludedKey p.1 = false → hasValue p.2 = true →
      p.1 ∈ ma.map Prod.fst ∧ p.1 ∈ mb.map Prod.fst)
    (hdir2a : ∀ q ∈ ma, ∃ v, (q.1, v) ∈ entries ∧ excludedKey q.1 = false ∧ hasValue v = true)
    (hdir2b : ∀ q ∈ mb, ∃ v, (q.1, v) ∈ entries ∧ excludedKey q.1 = false ∧ hasValue v = true) :
    provenanceOk (entries ++
      [("field_last_received_at", .obj ma), ("field_last_received_by", .obj mb)]) = true := by
  have hla : (entries ++
      [("field_last_received_at", JVal.obj ma), ("field_last_received_by", JVal.obj mb)]).lookup
        "field_last_received_at" = some (.obj ma) := by
    rw [lookup_append_none (lookup_eq_none_of_keys hka)]
    rfl
  have hlb : (entries ++
      [("field_last_received_at", JVal.obj ma), ("field_last_received_by", JVal.obj mb)]).lookup
        "field_last_received_by" = some (.obj mb) := by
    rw [lookup_append_none (lookup_eq_none_of_keys hkb)]
    rfl
  unfold provenanceOk
  rw [hla, hlb]
  simp only [Bool.and_eq_true, List.all_eq_true]
  refine ⟨⟨?_, ?_⟩, ?_⟩
  · intro p hp
    rcases List.mem_append.mp hp with hp | hp
    · by_cases hex : excludedKey p.1 = true
      · simp [hex]
      · by_cases hhv : hasValue p.2 = true
        · rcases hdir1 p hp (by simpa using hex) hhv with ⟨h1, h2⟩
          simp only [Bool.or_eq_true, Bool.and_eq_true]
          right
          exact ⟨List.elem_eq_true_of_mem h1, List.elem_eq_true_of_mem h2⟩
        · simp only [Bool.not_eq_true] at hhv
          simp [hhv]
    · rcases List.mem_cons.mp hp with hp | hp
      · subst hp
        simp [excludedKey]
      · rcases List.mem_cons.mp hp with hp | hp
        · subst hp
          simp [excludedKey]
        · cases hp
  · intro q hq
    rcases hdir2a q hq with ⟨v, hv, hx, hhv⟩
    apply List.any_eq_true.mpr
    refine ⟨(q.1, v), List.mem_append_left _ hv, ?_⟩
    simp [hx, hhv]
  · intro q hq
    rcases hdir2b q hq with ⟨v, hv, hx, hhv⟩
    apply List.any_eq_true.mpr
    refine ⟨(q.1, v), List.mem_append_left _ hv, ?_⟩
    simp [hx, hhv]

/-- Generic construction for the weakened invariant: map entries at the key
`ex` are tolerated unconditionally. -/
theorem provenanceOkExcept_build {ex : String} {entries ma mb : List (String × JVal)}
    (hka : ∀ p ∈ entries, ("field_last_received_at" == p.1) = false)
    (hkb : ∀ p ∈ entries, ("field_last_received_by" == p.1) = false)
    (hdir1 : ∀ p ∈ entries, excludedKey p.1 = false → hasValue p.2 = true →
      p.1 ∈ ma.map Prod.fst ∧ p.1 ∈ mb.map Prod.fst)
    (hdir2a : ∀ q ∈ ma, q.1 = ex ∨
      ∃ v, (q.1, v) ∈ entries ∧ excludedKey q.1 = false ∧ hasValue v = true)
    (hdir2b : ∀ q ∈ mb, q.1 = ex ∨
      ∃ v, (q.1, v) ∈ entries ∧ excludedKey q.1 = false ∧ hasValue v = true) :
    provenanceOkExcept ex (entries ++
      [("field_last_received_at", .obj ma), ("field_last_received_by", .obj mb)]) = true := by
  have hla : (entries ++
      [("field_last_received_at", JVal.obj ma), ("field_last_received_by", JVal.obj mb)]).lookup
        "field_last_received_at" = some (.obj ma) := by
    rw [lookup_append_none (lookup_eq_none_of_keys hka)]
    rfl
  have hlb : (entries ++
      [("field_last_received_at", JVal.obj ma), ("field_last_received_by", JVal.obj mb)]).lookup
        "field_last_received_by" = some (.obj mb) := by
    rw [lookup_append_none (lookup_eq_none_of_keys hkb)]
    rfl
  unfold provenanceOkExcept
  rw [hla, hlb]
  simp only [Bool.and_eq_true, List.all_eq_true]
  refine ⟨⟨?_, ?_⟩, ?_⟩
  · intro p hp
    rcases List.mem_append.mp hp with hp | hp
    · by_cases hex : excludedKey p.1 = true
      · simp [hex]
      · by_cases hhv : hasValue p.2 = true
        · rcases hdir1 p hp (by simpa using hex) hhv with ⟨h1, h2⟩
          simp only [Bool.or_eq_true, Bool.and_eq_true]
          right
          exact ⟨List.elem_eq_true_of_mem h1, List.elem_eq_true_of_mem h2⟩
        · simp only [Bool.not_eq_true] at hhv
          simp [hhv]
    · rcases List.mem_cons.mp hp with hp | hp
      · subst hp
        simp [excludedKey]
      · rcases List.mem_cons.mp hp with hp | hp
        · subst hp
          simp [excludedKey]
        · cases hp
  · intro q hq
    rcases hdir2a q hq with hqe | ⟨v, hv, hx, hhv⟩
    · simp [hqe]
    · have hany : ((entries ++
          [("field_last_received_at", JVal.obj ma), ("field_last_received_by", JVal.obj mb)]).any
            (fun p => p.1 == q.1 && (!excludedKey p.1) && hasValue p.2)) = true := by
        apply List.any_eq_true.mpr
        refine ⟨(q.1, v), List.mem_append_left _ hv, ?_⟩
        simp [hx, hhv]
      simp [hany]
  · intro q hq
    rcases hdir2b q hq with hqe | ⟨v, hv, hx, hhv⟩
    · simp [hqe]
    · have hany : ((entries ++
          [("field_last_received_at", JVal.obj ma), ("field_last_received_by", JVal.obj mb)]).any
            (fun p => p.1 == q.1 && (!excludedKey p.1) && hasValue p.2)) = true := by
        apply List.any_eq_true.mpr
        refine ⟨(q.1, v), List.mem_append_left _ hv, ?_⟩
        simp [hx, hhv]
      simp [hany]

theorem commCustomerEntries_keys (ctx : CommCtx) :
    ∀ p ∈ commCustomerEntries ctx, p.1 ∈ (["id", "dealer_id", "last_ib_sms", "last_ob_sms",
      "last_ib_call", "last_ob_call", "primary_tier", "last_primary_tier_event",
      "last_lead"] : List String) := by
  intro p hp
  unfold commCustomerEntries at hp
  split at hp
  · simp only [mem_addIfHasValue, List.mem_cons, List.not_mem_nil, or_false] at hp
    rcases hp with ((((((rfl | rfl) | ⟨-, rfl⟩) | ⟨-, rfl⟩) | ⟨-, rfl⟩) | ⟨-, rfl⟩) | ⟨-, rfl⟩) |
      ⟨-, rfl⟩ <;> simp
  · split at hp
    · simp only [mem_addIfHasValue, List.mem_cons, List.not_mem_nil, or_false] at hp
      rcases hp with (((rfl | rfl) | ⟨-, rfl⟩) | ⟨-, rfl⟩) | ⟨-, rfl⟩ <;> simp
    · simp only [List.mem_cons, List.not_mem_nil, or_false] at hp
      rcases hp with rfl | rfl <;> simp

theorem apptCustomerEntries_keys (ctx : ApptCtx) :
    ∀ p ∈ apptCustomerEntries ctx, p.1 ∈ (["id", "dealer_id", "primary_tier",
      "last_primary_tier_event", "last_appt_scheduled_for", "last_appt_updated_at"] :
      List String) := by
  intro p hp
  unfold apptCustomerEntries at hp
  split at hp
  · split at hp
    · split at hp
      · simp only [mem_addIfHasValue, List.mem_cons, List.not_mem_nil, or_false] at hp
        rcases hp with ((((rfl | rfl) | ⟨-, rfl⟩) | ⟨-, rfl⟩) | ⟨-, rfl⟩) | ⟨-, rfl⟩ <;> simp
      · simp only [mem_addIfHasValue, List.mem_cons, List.not_mem_nil, or_false] at hp
        rcases hp with (((rfl | rfl) | ⟨-, rfl⟩) | ⟨-, rfl⟩) | ⟨-, rfl⟩ <;> simp
    · split at hp
      · simp only [mem_addIfHasValue, List.mem_cons, List.not_mem_nil, or_false] at hp
        rcases hp with (((rfl | rfl) | ⟨-, rfl⟩) | ⟨-, rfl⟩) | ⟨-, rfl⟩ <;> simp
      · simp only [mem_addIfHasValue, List.mem_cons, List.not_mem_nil, or_false] at hp
        rcases hp with ((rfl | rfl) | ⟨-, rfl⟩) | ⟨-, rfl⟩ <;> simp
  · split at hp
    · split at hp
      · simp only [mem_addIfHasValue, List.mem_cons, List.not_mem_nil, or_false] at hp
        rcases hp with ((rfl | rfl) | ⟨-, rfl⟩) | ⟨-, rfl⟩ <;> simp
      · simp only [mem_addIfHasValue, List.mem_cons, List.not_mem_nil, or_false] at hp
        rcases hp with (rfl | rfl) | ⟨-, rfl⟩ <;> simp
    · split at hp
      · simp only [mem_addIfHasValue, List.mem_cons, List.not_mem_nil, or_false] at hp
        rcases hp with (rfl | rfl) | ⟨-, rfl⟩ <;> simp
      · simp only [List.mem_cons, List.not_mem_nil, or_false] at hp
        rcases hp with rfl | rfl <;> simp

theorem except_map_ok {ε α β : Type} {f : α → β} {x : Except ε α} {b : β}
    (h : x.map f = .ok b) : ∃ a, x = .ok a ∧ b = f a := by
  cases x with
  | error e => simp [Except.map] at h
  | ok a =>
    refine ⟨a, rfl, ?_⟩
    simpa [Except.map] using h.symm

theorem keys_beq_false {p : String × JVal} {allowed : List String} {k : String}
    (hmem : p.1 ∈ allowed) (hk : allowed.all (fun a => !(k == a)) = true) :
    (k == p.1) = false := by
  have := List.all_eq_true.mp hk p.1 hmem
  simpa using this

theorem commPromaxCustomer_provOk (ctx : CommCtx) :
    provenanceOk (commPromaxCustomer ctx) = true := by
  unfold commPromaxCustomer
  simp only [stampFields_eq_stampOne]
  apply provenanceOk_build
  · intro p hp
    exact keys_beq_false (commCustomerEntries_keys ctx p hp) (by decide)
  · intro p hp
    exact keys_beq_false (commCustomerEntries_keys ctx p hp) (by decide)
  · intro p hp hex hhv
    constructor
    · apply (stampOne_keys _ _ _ _).mpr
      exact Or.inr ⟨p.2, by rw [Prod.mk.eta]; exact hp, hex, hhv⟩
    · apply (stampOne_keys _ _ _ _).mpr
      exact Or.inr ⟨p.2, by rw [Prod.mk.eta]; exact hp, hex, hhv⟩
  · intro q hq
    have hk : q.1 ∈ (stampOne [] (commCustomerEntries ctx) ctx.dexWsTimestamp).map Prod.fst :=
      List.mem_map.mpr ⟨q, hq, rfl⟩
    rcases (stampOne_keys _ _ _ _).mp hk with h | h
    · simp at h
    · exact h
  · intro q hq
    have hk : q.1 ∈ (stampOne [] (commCustomerEntries ctx) (.str ctx.eventId)).map Prod.fst :=
      List.mem_map.mpr ⟨q, hq, rfl⟩
    rcases (stampOne_keys _ _ _ _).mp hk with h | h
    · simp at h
    · exact h

theorem dealer_mem_apptCustomerEntries (ctx : ApptCtx) :
    ("dealer_id", ctx.dealer_id) ∈ apptCustomerEntries ctx := by
  unfold apptCustomerEntries
  split <;> split <;> split <;> simp [mem_addIfHasValue]

theorem apptPromaxCustomer_provExcept (ctx : ApptCtx) :
    provenanceOkExcept "dealer_id" (apptPromaxCustomer ctx) = true := by
  unfold apptPromaxCustomer
  simp only [stampFields_eq_stampOne]
  apply provenanceOkExcept_build
  · intro p hp
    exact keys_beq_false (apptCustomerEntries_keys ctx p hp) (by decide)
  · intro p hp
    exact keys_beq_false (apptCustomerEntries_keys ctx p hp) (by decide)
  · intro p hp hex hhv
    constructor
    · apply (stampOne_keys _ _ _ _).mpr
      exact Or.inr ⟨p.2, by rw [Prod.mk.eta]; exact hp, hex, hhv⟩
    · apply (stampOne_keys _ _ _ _).mpr
      exact Or.inr ⟨p.2, by rw [Prod.mk.eta]; exact hp, hex, hhv⟩
  · intro q hq
    have hk : q.1 ∈ (stampOne [("dealer_id", ctx.dexWsTimestamp)] (apptCustomerEntries ctx)
        ctx.dexWsTimestamp).map Prod.fst :=
      List.mem_map.mpr ⟨q, hq, rfl⟩
    rcases (stampOne_keys _ _ _ _).mp hk with h | h
    · left
      simpa using h
    · exact Or.inr h
  · intro q hq
    have hk : q.1 ∈ (stampOne [("dealer_id", .str ctx.eventId)] (apptCustomerEntries ctx)
        (.str ctx.eventId)).map Prod.fst :=
      List.mem_map.mpr ⟨q, hq, rfl⟩
    rcases (stampOne_keys _ _ _ _).mp hk with h | h
    · left
      simpa using h
    · exact Or.inr h

theorem apptPromaxCustomer_provOk (ctx : ApptCtx) (hd : hasValue ctx.dealer_id = true) :
    provenanceOk (apptPromaxCustomer ctx) = true := by
  unfold apptPromaxCustomer
  simp only [stampFields_eq_stampOne]
  apply provenanceOk_build
  · intro p hp
    exact keys_beq_false (apptCustomerEntries_keys ctx p hp) (by decide)
  · intro p hp
    exact keys_beq_false (apptCustomerEntries_keys ctx p hp) (by decide)
  · intro p hp hex hhv
    constructor
    · apply (stampOne_keys _ _ _ _).mpr
      exact Or.inr ⟨p.2, by rw [Prod.mk.eta]; exact hp, hex, hhv⟩
    · apply (stampOne_keys _ _ _ _).mpr
      exact Or.inr ⟨p.2, by rw [Prod.mk.eta]; exact hp, hex, hhv⟩
  · intro q hq
    have hk : q.1 ∈ (stampOne [("dealer_id", ctx.dexWsTimestamp)] (apptCustomerEntries ctx)
        ctx.dexWsTimestamp).map Prod.fst :=
      List.mem_map.mpr ⟨q, hq, rfl⟩
    rcases (stampOne_keys _ _ _ _).mp hk with h | h
    · have hq1 : q.1 = "dealer_id" := by simpa using h
      exact ⟨ctx.dealer_id, by rw [hq1]; exact dealer_mem_apptCustomerEntries ctx,
        by rw [hq1]; decide, hd⟩
    · exact h
  · intro q hq
    have hk : q.1 ∈ (stampOne [("dealer_id", .str ctx.eventId)] (apptCustomerEntries ctx)
        (.str ctx.eventId)).map Prod.fst :=
      List.mem_map.mpr ⟨q, hq, rfl⟩
    rcases (stampOne_keys _ _ _ _).mp hk with h | h
    · have hq1 : q.1 = "dealer_id" := by simpa using h
      exact ⟨ctx.dealer_id, by rw [hq1]; exact dealer_mem_apptCustomerEntries ctx,
        by rw [hq1]; decide, hd⟩
    · exact h

/-- C1 (amended): every accepted delivery's `promax_customer` satisfies the
provenance-completeness invariant in the communications handler; in the
appointments handler the invariant holds for every key except the
pre-seeded `dealer_id` — whose shadow entries persist even when its value
fails `hasValue` (see the counterexample) — and holds in full whenever the
validated `dealer_id` passes `hasValue`. -/
theorem C1_provenance_completeness :
    (∀ (ext : CommExternals) (req : Request) (now : Int) (nowIso : String) (out : JVal),
      commCore ext req now nowIso = .ok out →
      ∃ ctx, commValidate ext req now = .ok ctx ∧
        getField out "promax_customer" = some (.obj (commPromaxCustomer ctx)) ∧
        provenanceOk (commPromaxCustomer ctx) = true) ∧
    (∀ (req : Request) (now : Int) (nowIso : String) (out : JVal),
      apptCore req now nowIso = .ok out →
      ∃ ctx, apptValidate req now = .ok ctx ∧
        getField out "promax_customer" = some (.obj (apptPromaxCustomer ctx)) ∧
        provenanceOkExcept "dealer_id" (apptPromaxCustomer ctx) = true ∧
        (hasValue ctx.dealer_id = true → provenanceOk (apptPromaxCustomer ctx) = true)) := by
  constructor
  · intro ext req now nowIso out h
    rcases except_map_ok h with ⟨ctx, hval, hout⟩
    subst hout
    exact ⟨ctx, hval, rfl, commPromaxCustomer_provOk ctx⟩
  · intro req now nowIso out h
    rcases except_map_ok h with ⟨ctx, hval, hout⟩
    subst hout
    refine ⟨ctx, hval, ?_, apptPromaxCustomer_provExcept ctx,
      fun hd => apptPromaxCustomer_provOk ctx hd⟩
    exact lookup_append_some rfl

/-- The concrete appointments request of the C1 counterexample: accepted by
the handler, with `dealer_id = {}` (truthy, so the correlation check
passes, but failing `hasValue`). -/
def c1cxReq : Request := {
  body := some (.obj [
    ("sales_appointment", .obj [("appointment", .obj [
      ("appointment_id", .str "A1"),
      ("appointment_status", .obj [("status", .str "Missed")])])]),
    ("customer_id", .str "C1"),
    ("dealer_id", .obj []),
    ("timestamp", .num 1700000000000)]),
  headers := some [] }

/-- Whether the counterexample request is accepted. -/
def c1cxClassified : Bool :=
  match apptHandler c1cxReq 0 "t" with
  | .classified _ => true
  | _ => false

/-- The `promax_customer` aggregate the handler emits for it. -/
def c1cxAgg : List (String × JVal) :=
  match apptHandler c1cxReq 0 "t" with
  | .classified out =>
    match getField out "promax_customer" with
    | some (.obj agg) => agg
    | _ => []
  | _ => []

/-- Keys of its `field_last_received_at` / `field_last_received_by` maps. -/
def c1cxAtKeys : List String :=
  match c1cxAgg.lookup "field_last_received_at" with
  | some (.obj ma) => ma.map Prod.fst
  | _ => []

def c1cxByKeys : List String :=
  match c1cxAgg.lookup "field_last_received_by" with
  | some (.obj mb) => mb.map Prod.fst
  | _ => []

/-- Counterexample to C1 as stated: the appointments handler accepts the
request, yet the emitted `promax_customer` violates the invariant — its
`dealer_id` is `{}` (failing `hasValue`) while both shadow maps still carry
a `dealer_id` entry, because the loop's accumulators are pre-seeded with
it. -/
theorem C1_provenance_completeness_counterexample :
    c1cxClassified = true ∧
    provenanceOk c1cxAgg = false ∧
    c1cxAgg.lookup "dealer_id" = some (.obj []) ∧
    hasValue (.obj []) = false ∧
    c1cxAtKeys.contains "dealer_id" = true ∧
    c1cxByKeys.contains "dealer_id" = true := by
  refine ⟨by decide, by decide, rfl, by decide, by decide, by decide⟩

def idExternals : CommExternals := {
  smsClean := fun s => s,
  emailClean := fun s => some s,
  phoneExtract := fun _ => none }

/-- A concrete accepted communications request for the C1 witness. -/
def c1wReq : Request := {
  body := some (.obj [
    ("communications", .obj [
      ("employee_id", .str "E1"),
      ("messages", .arr [.obj [("type", .str "Phone"), ("direction", .str "Outgoing"),
        ("date_time", .str "2025-01-01T10:00:00Z"), ("body", .str "no answer")]])]),
    ("customer_id", .str "C1"),
    ("dealer_id", .str "D1"),
    ("timestamp", .num 99)]),
  headers := some [] }

def c1wOut : JVal :=
  match commCore idExternals c1wReq 0 "t" with
  | .ok b => b
  | .error _ => .null

/-- Witness for C1: the communications conjunct applied to a concrete
accepted delivery. -/
theorem C1_provenance_completeness_witness :
    ∃ ctx, commValidate idExternals c1wReq 0 = .ok ctx ∧
      getField c1wOut "promax_customer" = some (.obj (commPromaxCustomer ctx)) ∧
      provenanceOk (commPromaxCustomer ctx) = true :=
  C1_provenance_completeness.1 idExternals c1wReq 0 "t" c1wOut rfl

-- C9: degraded outcome on unexpected failure.

/-- C9: whenever core processing of either handler throws, the handler
rethrows messages starting with `Invalid payload` as the Rejected outcome
and otherwise returns the degraded envelope: its `event_type` is the
sentinel "unknown", its `original_payload` is the unmodified raw body (or
null), and its `error` field carries the failure message and timestamp. -/
theorem C9_degraded_on_unexpected :
    (∀ (req : Request) (now : Int) (nowIso m : String),
      apptCore req now nowIso = .error m →
        (errorStartsInvalid m = false →
          apptHandler req now nowIso = .degraded (apptDegraded req now nowIso m) ∧
          getField (apptDegraded req now nowIso m) "event_type" = some (.str "unknown") ∧
          getField (apptDegraded req now nowIso m) "original_payload" =
            some (req.body.getD .null) ∧
          getField (apptDegraded req now nowIso m) "error" =
            some (.obj [("message", .str m), ("timestamp", .str nowIso)])) ∧
        (errorStartsInvalid m = true →
          apptHandler req now nowIso = .rejected m)) ∧
    (∀ (ext : CommExternals) (req : Request) (now : Int) (nowIso m : String),
      commCore ext req now nowIso = .error m →
        (errorStartsInvalid m = false →
          commHandler ext req now nowIso = .degraded (commDegraded req now nowIso m) ∧
          getField (commDegraded req now nowIso m) "event_type" = some (.str "unknown") ∧
          getField (commDegraded req now nowIso m) "original_payload" =
            some (req.body.getD .null) ∧
          getField (commDegraded req now nowIso m) "error" =
            some (.obj [("message", .str m), ("timestamp", .str nowIso)])) ∧
        (errorStartsInvalid m = true →
          commHandler ext req now nowIso = .rejected m)) := by
  constructor
  · intro req now nowIso m h
    refine ⟨fun hni => ⟨?_, rfl, rfl, rfl⟩, fun hyi => ?_⟩
    · simp [apptHandler, h, hni]
    · simp [apptHandler, h, hyi]
  · intro ext req now nowIso m h
    refine ⟨fun hni => ⟨?_, rfl, rfl, rfl⟩, fun hyi => ?_⟩
    · simp [commHandler, h, hni]
    · simp [commHandler, h, hyi]

def c9Req : Request :=
  { body := some (.obj [("sales_appointment",
      .obj [("appointment", .obj [("appointment_id", .num 1)])])]),
    headers := none }

def c9Msg : String := "TypeError: Cannot read properties of undefined (reading idempotency-key)"

/-- Witness for C9: a request with no headers object makes the appointments
core throw a TypeError (not a validation failure), and the handler returns
the degraded envelope. -/
theorem C9_degraded_on_unexpected_witness :
    apptCore c9Req 0 "t" = .error c9Msg ∧ errorStartsInvalid c9Msg = false ∧
    apptHandler c9Req 0 "t" = .degraded (apptDegraded c9Req 0 "t" c9Msg) ∧
    getField (apptDegraded c9Req 0 "t" c9Msg) "event_type" = some (.str "unknown") :=
  ⟨rfl, by decide, ((C9_degraded_on_unexpected.1 c9Req 0 "t" c9Msg rfl).1 (by decide)).1,
    ((C9_degraded_on_unexpected.1 c9Req 0 "t" c9Msg rfl).1 (by decide)).2.1⟩

-- C10: zero-valued correlation identifiers and timestamps.

/-- C10: correlation-identifier presence is decided by JavaScript truthiness
(`if (!customer_id)`), not by `hasValue`: a `customer_id` or `dealer_id`
normalizing to the number 0 (which `hasValue` accepts and `getOrNull` keeps)
is rejected as `missing` by the appointments validations and by the
notifications gate, and an accepted request whose top-level `timestamp`
normalizes to 0 gets the current time instead. -/
theorem C10_zero_identifier_truthiness :
    hasValue (.num 0) = true ∧ getOrNull (.num 0) = .num 0 ∧ truthy (.num 0) = false ∧
    (∀ (req : Request) (bf hs : List (String × JVal)) (now : Int),
      req.body = some (.obj bf) → req.headers = some hs →
      (truthy (fieldOr (.obj bf) "sales_appointment") &&
        typeofObject (fieldOr (.obj bf) "sales_appointment")) = true →
      truthy (fieldOr (fieldOr (.obj bf) "sales_appointment") "appointment") = true →
      getOrNullOpt (getField (.obj bf) "customer_id") = .num 0 →
      apptValidate req now = .error "Invalid payload: missing customer_id") ∧
    (∀ (req : Request) (bf hs : List (String × JVal)) (now : Int),
      req.body = some (.obj bf) → req.headers = some hs →
      (truthy (fieldOr (.obj bf) "sales_appointment") &&
        typeofObject (fieldOr (.obj bf) "sales_appointment")) = true →
      truthy (fieldOr (fieldOr (.obj bf) "sales_appointment") "appointment") = true →
      truthy (getOrNullOpt (getField (.obj bf) "customer_id")) = true →
      getOrNullOpt (getField (.obj bf) "dealer_id") = .num 0 →
      apptValidate req now = .error "Invalid payload: missing dealer_id") ∧
    (∀ (req : Request) (bf hs : List (String × JVal)) (nl : List JVal) (now : Int),
      req.body = some (.obj bf) → req.headers = some hs →
      getField (.obj bf) "notifications" = some (.arr nl) → nl.isEmpty = false →
      getOrNullOpt (getField (.obj bf) "customer_id") = .num 0 →
      notifGate req now = .error "Invalid payload: missing required customer_id") ∧
    (∀ (req : Request) (now : Int) (ctx : ApptCtx),
      apptValidate req now = .ok ctx →
      getOrNullOpt (getField (.obj ctx.body) "timestamp") = .num 0 →
      ctx.dexWsTimestamp = .num now) := by
  refine ⟨rfl, rfl, rfl, ?_, ?_, ?_, ?_⟩
  · intro req bf hs now hb hh h1 h2 h3
    rw [Bool.and_eq_true] at h1
    obtain ⟨h1a, h1b⟩ := h1
    have ht0 : truthy (JVal.num 0) = false := rfl
    unfold apptValidate
    rw [hb, hh]
    simp [guardE, h1a, h1b, h2, h3, ht0, readHeader, bind, Except.bind, Except.map]
  · intro req bf hs now hb hh h1 h2 h3 h4
    rw [Bool.and_eq_true] at h1
    obtain ⟨h1a, h1b⟩ := h1
    have ht0 : truthy (JVal.num 0) = false := rfl
    unfold apptValidate
    rw [hb, hh]
    simp [guardE, h1a, h1b, h2, h3, h4, ht0, readHeader, bind, Except.bind, Except.map]
  · intro req bf hs nl now hb hh hn hne h3
    have ht0 : truthy (JVal.num 0) = false := rfl
    unfold notifGate
    rw [hb, hh]
    simp [guardE, hn, hne, h3, ht0, readHeader, bind, Except.bind, Except.map]
  · intro req now ctx h hz
    unfold apptValidate at h
    split at h
    case _ l heq =>
      simp only [bind, Except.bind, guardE, pure, Except.pure] at h
      repeat' split at h
      any_goals exact Except.noConfusion h
      all_goals rename_i htr
      all_goals injection h with h
      all_goals subst h
      all_goals simp only at hz ⊢
      rw [hz] at htr
      exact absurd htr (by decide)
    case _ => exact Except.noConfusion h

def c10Req : Request :=
  { body := some (.obj [
      ("sales_appointment", .obj [("appointment", .obj [("appointment_id", .num 5)])]),
      ("customer_id", .num 0), ("dealer_id", .num 7)]),
    headers := some [] }

def c10nReq : Request :=
  { body := some (.obj [
      ("notifications", .arr [.obj [("code", .num 1000)]]),
      ("customer_id", .num 0), ("dealer_id", .num 7)]),
    headers := some [] }

def c10vReq : Request :=
  { body := some (.obj [
      ("sales_appointment", .obj [("appointment", .obj [
        ("appointment_id", .num 5),
        ("confirmed_status", .obj [("confirmed", .bool true)]),
        ("appointment_status", .obj [("status", .str "Current")])])]),
      ("customer_id", .num 3), ("dealer_id", .num 7),
      ("timestamp", .num 0)]),
    headers := some [("idempotency-key", .str "k")] }

def c10Junk : ApptCtx :=
  { body := [], salesAppointment := .null, appointment := .null, customer_id := .null,
    dealer_id := .null, dexWsTimestamp := .null, payloadHash := .null,
    appointment_id := .null, eventType := "", eventId := "", status := .null, dateTime := .null }

def c10ctx : ApptCtx := (apptValidate c10vReq 9).toOption.getD c10Junk

/-- Witness for C10: a zero `customer_id` is rejected as missing by the
appointments validations and the notifications gate, and an accepted
request with `timestamp` 0 gets the current time 9 instead. -/
theorem C10_zero_identifier_truthiness_witness :
    apptValidate c10Req 0 = .error "Invalid payload: missing customer_id" ∧
    notifGate c10nReq 0 = .error "Invalid payload: missing required customer_id" ∧
    apptValidate c10vReq 9 = .ok c10ctx ∧ c10ctx.dexWsTimestamp = .num 9 :=
  ⟨C10_zero_identifier_truthiness.2.2.2.1 c10Req _ [] 0 rfl rfl (by decide) (by decide) rfl,
   C10_zero_identifier_truthiness.2.2.2.2.2.1 c10nReq _ [] _ 0 rfl rfl rfl (by decide) rfl,
   rfl,
   C10_zero_identifier_truthiness.2.2.2.2.2.2 c10vReq 9 c10ctx rfl rfl⟩
